import Mathlib

/-!
Formal model of the PIMS importer module (pims/importer/importer.py).

The development shallowly embeds the import pipeline: paths are lists of
structured file names, the filesystem is an explicit record of files,
symbolic links and directories, and every effectful step of the source is
a function from an importer state to a result paired with the new state.
External collaborators (format factories, the archive reader, integrity
checks, the conversion operation, the task substrate) are supplied as an
environment of oracles, so that the theorems quantify over all of their
behaviours.  Line numbers in comments refer to pims/importer/importer.py.
-/

namespace Pims

/-- A file name, split into a stem and an optional extension.  The source
builds file names as Python f-strings of the shape stem-dot-extension with
dot-free stems, so the split form is an exact structured rendering. -/
structure FName where
  stem : String
  ext : Option String
deriving DecidableEq, Repr

/-- A filesystem path, as the list of its name components. -/
abbrev FPath := List FName

/-! ## Key decoding (decode_key, importer.py lines 738-747) -/

/-- SecretBox.KEY_SIZE from pynacl: the required secret key length. -/
def NACL_KEY_LENGTH : Nat := 32

/-- Model of decode_key (lines 738-747), expressed on the byte string
obtained from b64decode.  The source slices the last NACL_KEY_LENGTH bytes
(Python slice with a negative start index, which returns the whole string
when it is shorter) and then checks the length of the slice. -/
def decode_key (decoded : List Nat) : Except String (List Nat) :=
  let secret_key := decoded.drop (decoded.length - NACL_KEY_LENGTH)
  if secret_key.length ≠ NACL_KEY_LENGTH then
    Except.error "The extracted key is not NACL_KEY_LENGTH bytes long!"
  else
    Except.ok secret_key

/-! ## Listener notification (FileImporter.notify, importer.py lines 158-164) -/

/-- Outcome of invoking one listener for one event kind: the handler exists
and returns normally; the attribute lookup or the handler raises
AttributeError (the only exception class the source catches); or the
handler raises any other exception. -/
inductive HOutcome
  | handled
  | attrError
  | otherExn
deriving DecidableEq, Repr

/-- One step of the notify loop (lines 159-164) starting at listener index
i: each listener is attempted in registration order; an AttributeError is
logged and the loop continues; any other exception propagates at once.
Returns the indices of the listeners that were attempted, in order, and
whether an exception aborted the loop. -/
def deliverFrom (i : Nat) : List HOutcome → List Nat × Bool
  | [] => ([], false)
  | h :: rest =>
    match h with
    | HOutcome.otherExn => ([i], true)
    | _ =>
      let r := deliverFrom (i + 1) rest
      (i :: r.1, r.2)

/-- Model of FileImporter.notify (lines 158-164): deliver one event to the
listener list, each listener described by the outcome of its handler. -/
def notifyDelivery (hs : List HOutcome) : List Nat × Bool :=
  deliverFrom 0 hs

theorem deliverFrom_no_exn (hs : List HOutcome) :
    ∀ i, (∀ h ∈ hs, h ≠ HOutcome.otherExn) →
      deliverFrom i hs = (List.range' i hs.length, false) := by
  induction hs with
  | nil => intro i _; simp [deliverFrom]
  | cons h rest ih =>
    intro i hno
    have hh : h ≠ HOutcome.otherExn := hno h (by simp)
    have hrest : ∀ x ∈ rest, x ≠ HOutcome.otherExn := by
      intro x hx; exact hno x (by simp [hx])
    cases h with
    | handled => simp [deliverFrom, ih (i + 1) hrest, List.range'_succ]
    | attrError => simp [deliverFrom, ih (i + 1) hrest, List.range'_succ]
    | otherExn => exact absurd rfl hh

theorem deliverFrom_first_exn (pre post : List HOutcome) :
    ∀ i, (∀ h ∈ pre, h ≠ HOutcome.otherExn) →
      deliverFrom i (pre ++ HOutcome.otherExn :: post) =
        (List.range' i (pre.length + 1), true) := by
  induction pre with
  | nil => intro i _; simp [deliverFrom]
  | cons h rest ih =>
    intro i hno
    have hh : h ≠ HOutcome.otherExn := hno h (by simp)
    have hrest : ∀ x ∈ rest, x ≠ HOutcome.otherExn := by
      intro x hx; exact hno x (by simp [hx])
    cases h with
    | handled => simp [deliverFrom, ih (i + 1) hrest, List.range'_succ]
    | attrError => simp [deliverFrom, ih (i + 1) hrest, List.range'_succ]
    | otherExn => exact absurd rfl hh

/-- C3, counterexample.  A listener whose handler raises an exception that
is not an AttributeError (modelled as HOutcome.otherExn at index 0, with a
well-behaved listener at index 1): the source notify loop (lines 158-164)
catches only AttributeError, so the exception propagates, delivery aborts,
and listener 1 is never attempted — contradicting the claim that any
handler exception is logged and delivery continues to remaining
listeners. -/
theorem C3_notify_counterexample :
    notifyDelivery [HOutcome.otherExn, HOutcome.handled] = ([0], true) ∧
    ([0] : List Nat) ≠ [0, 1] := by
  decide

/-- C3, amended.  Delivery by FileImporter.notify is sequential in listener
registration order and tolerant only of AttributeError (a missing handler
method, or a handler that itself raises AttributeError): such failures are
logged and delivery continues to the remaining listeners.  A handler that
raises any other exception aborts delivery: exactly the listeners up to
and including the offender are attempted, and the exception propagates to
the pipeline. -/
theorem C3_notify_amended (hs pre post : List HOutcome) :
    ((∀ h ∈ hs, h ≠ HOutcome.otherExn) →
        notifyDelivery hs = (List.range hs.length, false)) ∧
    ((∀ h ∈ pre, h ≠ HOutcome.otherExn) →
        notifyDelivery (pre ++ HOutcome.otherExn :: post) =
          (List.range (pre.length + 1), true)) := by
  constructor
  · intro hno
    rw [notifyDelivery, deliverFrom_no_exn hs 0 hno, List.range_eq_range']
  · intro hno
    rw [notifyDelivery, deliverFrom_first_exn pre post 0 hno,
      List.range_eq_range']

/-- C3, witness for the amended theorem at concrete listener lists. -/
theorem C3_notify_amended_witness :
    notifyDelivery [HOutcome.handled, HOutcome.attrError] = ([0, 1], false) ∧
    notifyDelivery
        [HOutcome.attrError, HOutcome.otherExn, HOutcome.handled] =
      ([0, 1], true) := by
  have h := C3_notify_amended [HOutcome.handled, HOutcome.attrError]
    [HOutcome.attrError] [HOutcome.handled]
  exact ⟨by simpa using h.1 (by decide), by simpa using h.2 (by decide)⟩

/-- C9, counterexample.  The claim requires a length-mismatch failure
whenever the decoded material is the wrong size, too long included;  but
decode_key (line 743) slices the last NACL_KEY_LENGTH bytes of the decoded
material, so a 33-byte decoded blob succeeds, returning its last 32
bytes. -/
theorem C9_decode_key_counterexample :
    decode_key (List.replicate 33 7) = Except.ok (List.replicate 32 7) := rfl

/-- C9, amended.  decode_key keeps the trailing NACL_KEY_LENGTH bytes of
the decoded material: whenever the decoded material has at least
NACL_KEY_LENGTH bytes (the right size included) it returns a secret key of
exactly NACL_KEY_LENGTH bytes, namely the trailing slice;  it fails with
the length-mismatch error exactly when the decoded material is too
short. -/
theorem C9_decode_key_amended (decoded : List Nat) :
    (NACL_KEY_LENGTH ≤ decoded.length →
      decode_key decoded =
        Except.ok (decoded.drop (decoded.length - NACL_KEY_LENGTH)) ∧
      (decoded.drop (decoded.length - NACL_KEY_LENGTH)).length =
        NACL_KEY_LENGTH) ∧
    (decoded.length < NACL_KEY_LENGTH →
      decode_key decoded =
        Except.error
          "The extracted key is not NACL_KEY_LENGTH bytes long!") := by
  constructor
  · intro hle
    have hlen : (decoded.drop (decoded.length - NACL_KEY_LENGTH)).length =
        NACL_KEY_LENGTH := by
      rw [List.length_drop]
      omega
    refine ⟨?_, hlen⟩
    simp [decode_key, hlen]
  · intro hlt
    have hne : decoded.length - (decoded.length - NACL_KEY_LENGTH) ≠
        NACL_KEY_LENGTH := by
      unfold NACL_KEY_LENGTH at hlt ⊢
      omega
    simp [decode_key, hne]

/-- C9, witness for the amended theorem at a concrete 48-byte decoded blob
and a concrete 10-byte decoded blob. -/
theorem C9_decode_key_amended_witness :
    (NACL_KEY_LENGTH ≤ (List.replicate 48 (1 : Nat)).length ∧
      decode_key (List.replicate 48 (1 : Nat)) =
        Except.ok (List.replicate 32 (1 : Nat))) ∧
    ((List.replicate 10 (1 : Nat)).length < NACL_KEY_LENGTH ∧
      decode_key (List.replicate 10 (1 : Nat)) =
        Except.error
          "The extracted key is not NACL_KEY_LENGTH bytes long!") := by
  constructor
  · refine ⟨by decide, ?_⟩
    rw [(C9_decode_key_amended (List.replicate 48 1)).1 (by decide) |>.1]
    rfl
  · exact ⟨by decide,
      (C9_decode_key_amended (List.replicate 10 1)).2 (by decide)⟩

/-! ## Pipeline data model -/

/-- Event kinds (ImportEventType from pims.importer.listeners, as used by
importer.py). -/
inductive EventKind
  | startDataExtraction
  | fileNotFound
  | movedPendingFile
  | endDataExtraction
  | startFormatDetection
  | errorNoFormat
  | endFormatDetection
  | startUnpacking
  | errorUnpacking
  | endUnpacking
  | startIntegrityCheck
  | errorIntegrityCheck
  | endIntegrityCheck
  | startSpatialDeploy
  | endSpatialDeploy
  | startConversion
  | errorConversion
  | endConversion
  | startHistogramDeploy
  | errorHistogram
  | endHistogramDeploy
  | registerFile
  | fileNotMoved
  | fileError
  | endSuccessfulImport
deriving DecidableEq, Repr

/-- One delivered event: its kind plus the first (subject) argument passed
to notify, when that argument is a path that is not None. -/
structure Event where
  kind : EventKind
  subject : Option FPath
deriving DecidableEq, Repr

/-- The exception kinds raised by the pipeline: FilepathNotFoundProblem,
FileErrorProblem, NoMatchingFormatProblem, ImageParsingProblem,
FormatConversionProblem, NotImplementedError, a failed Python assert, and
an exception escaping an in-process child import task. -/
inductive PErr
  | filepathNotFound
  | fileError
  | noMatchingFormat
  | imageParsing
  | formatConversion
  | notImplemented
  | assertionFailed
  | taskError
deriving DecidableEq, Repr

/-- The filesystem: regular files with abstract contents (a natural number
stands for a byte string), symbolic links, and directories. -/
structure Fs where
  files : List (FPath × Nat)
  links : List (FPath × FPath)
  dirs : List FPath
deriving DecidableEq, Repr

/-- Existence of a path (Path.exists resolves files, links and
directories). -/
def fsExists (fs : Fs) (p : FPath) : Bool :=
  (fs.files.lookup p).isSome || (fs.links.lookup p).isSome ||
    fs.dirs.contains p

/-- A format descriptor: the capability surface of AbstractFormat that
importer.py consults. -/
structure AFormat where
  identifier : String
  isSpatial : Bool
  needConversion : Bool
  conversionIdentifier : String
deriving DecidableEq, Repr

/-- An image object, Image(path, format). -/
structure Image where
  path : FPath
  format : AFormat
deriving DecidableEq, Repr

/-- Outcome of format.convert on the spatial target path: the call raised
internally, or it returned the report r, possibly having produced output
bytes at the target path. -/
inductive ConvOutcome
  | raised
  | ret (r : Bool) (produced : Option Nat)
deriving DecidableEq, Repr

/-- An archive object (pims.files.archive.Archive): its container format
and the outcome of extract — none models an ArchiveError, some c the
extracted content. -/
structure ArchiveModel where
  format : AFormat
  extractResult : Option Nat
deriving DecidableEq, Repr

/-- Outcome of submitting the task group and joining on it (celery group
apply_async plus get, lines 497-511): either the whole batch completed, or
submission or join raised, with executed listing the indices of the tasks
the workers had run before the exception surfaced (get re-raises a child
task exception after sibling tasks may already have run). -/
inductive GroupOutcome
  | allOk
  | failAfter (executed : List Nat)
deriving DecidableEq, Repr

/-- The environment: configuration values and external collaborators.  The
function-valued fields are oracles, so theorems about the pipeline
quantify over every behaviour of format detection, archive probing,
integrity checks, conversion, histogram building, child traversal, the
task substrate, and OS-level failure of each filesystem primitive. -/
structure Env where
  rootPath : FPath
  pendingPath : FPath
  writingPath : FPath
  uniqueName : String
  isExtracted : FPath → Bool
  matchImportable : FPath → Option AFormat
  matchSpatial : FPath → Option AFormat
  archiveFrom : FPath → Option ArchiveModel
  checkIntegrity : FPath → AFormat → List String
  convert : AFormat → FPath → ConvOutcome
  buildHistogram : FPath → Option Nat
  extractedChildren : FPath → List FPath
  hasCytomine : Bool
  childListenerFails : FPath → Bool
  taskQueueEnabled : Bool
  groupOutcome : GroupOutcome
  taskRuns : FPath → Bool
  mkdirFails : FPath → Bool
  moveFails : FPath → Bool
  symlinkFails : FPath → Bool

/-- The mutable state of one FileImporter run: the filesystem, the events
delivered so far, the importer attributes (lines 101-156), and a log of
the child import task executions. -/
structure St where
  fs : Fs
  events : List Event
  uploadDir : Option FPath := none
  uploadPath : Option FPath := none
  processedDir : Option FPath := none
  originalPath : Option FPath := none
  extractedDir : Option FPath := none
  spatialPath : Option FPath := none
  histogramPath : Option FPath := none
  original : Option Image := none
  spatial : Option Image := none
  execLog : List FPath := []
deriving DecidableEq, Repr

/-- Deliver one event (FileImporter.notify with well-behaved listeners;
listener misbehaviour is studied separately on notifyDelivery). -/
def emit (k : EventKind) (subj : Option FPath) (s : St) : St :=
  { s with events := s.events ++ [⟨k, subj⟩] }

/-- Result of one pipeline step: the Python return value or the raised
exception, paired with the state after the step (events already delivered
and filesystem effects survive an exception). -/
abbrev Res (α : Type) := Except PErr α × St

/-- Sequence two steps, propagating a raised exception. -/
def step {α β : Type} (x : Res α) (f : α → St → Res β) : Res β :=
  match x with
  | (Except.ok a, s) => f a s
  | (Except.error e, s) => (Except.error e, s)

/-! ## Layout constants and role checks

The names below come from pims.files.file, which is outside the given
sources; the spec fixes the layout they induce. -/

/-- Modelled from the spec: the processed-artifacts directory name
(PROCESSED_DIR in pims.files.file). -/
def PROCESSED_DIR : String := "processed"

/-- Modelled from the spec: the extracted-children directory name
(EXTRACTED_DIR in pims.files.file). -/
def EXTRACTED_DIR : String := "extracted"

/-- Modelled from the spec: the fixed stem of the original representation
(ORIGINAL_STEM in pims.files.file). -/
def ORIGINAL_STEM : String := "original"

/-- Modelled from the spec: the fixed stem of the spatial representation
(SPATIAL_STEM in pims.files.file). -/
def SPATIAL_STEM : String := "spatial"

/-- Modelled from the spec: the fixed stem of the histogram representation
(HISTOGRAM_STEM in pims.files.file). -/
def HISTOGRAM_STEM : String := "histogram"

/-- Modelled from the spec: the fixed name tag of upload directories (the
upload-dir name constant in pims.files.file; its exact value is
immaterial). -/
def UPLOAD_DIR_TAG : String := "upload"

/-- Modelled from the spec: role membership is encoded by the fixed stem
names, so a path carries the original role when its final name has stem
ORIGINAL_STEM (Path.has_original_role). -/
def hasOriginalRole (p : FPath) : Bool :=
  match p.getLast? with
  | some n => n.stem == ORIGINAL_STEM
  | none => false

/-- Modelled from the spec: a path carries the spatial role when its final
name has stem SPATIAL_STEM (Path.has_spatial_role). -/
def hasSpatialRole (p : FPath) : Bool :=
  match p.getLast? with
  | some n => n.stem == SPATIAL_STEM
  | none => false

/-- Modelled from the spec: a path carries the histogram role when its
final name has stem HISTOGRAM_STEM (Path.has_histogram_role). -/
def hasHistogramRole (p : FPath) : Bool :=
  match p.getLast? with
  | some n => n.stem == HISTOGRAM_STEM
  | none => false

/-! ## Filesystem primitives with notifications (lines 420-448) -/

/-- FileImporter.mkdir (lines 420-426): any OS failure is notified as a
FILE_ERROR event and re-raised as the file-error kind. -/
def mkdirOp (env : Env) (d : FPath) (s : St) : Res Unit :=
  if env.mkdirFails d then
    (Except.error PErr.fileError, emit EventKind.fileError (some d) s)
  else
    (Except.ok (),
      { s with fs := { s.fs with dirs := s.fs.dirs ++ [d] } })

/-- FileImporter.move (lines 428-437): shutil.copy when prefer_copy,
shutil.move otherwise; a missing origin or any OS failure is notified as
FILE_NOT_MOVED and re-raised as the file-error kind. -/
def moveOp (env : Env) (origin dest : FPath) (preferCopy : Bool)
    (s : St) : Res Unit :=
  match s.fs.files.lookup origin, env.moveFails origin with
  | some c, false =>
    if preferCopy then
      (Except.ok (),
        { s with fs := { s.fs with files := s.fs.files ++ [(dest, c)] } })
    else
      (Except.ok (),
        { s with fs :=
          { s.fs with
            files :=
              (s.fs.files.filter fun kv => decide (kv.1 ≠ origin)) ++
                [(dest, c)] } })
  | _, _ =>
    (Except.error PErr.fileError, emit EventKind.fileNotMoved (some origin) s)

/-- FileImporter.mksymlink (lines 439-448): record a link from path to
target; any OS failure is notified as FILE_ERROR and re-raised as the
file-error kind. -/
def symlinkOp (env : Env) (p target : FPath) (s : St) : Res Unit :=
  if env.symlinkFails p then
    (Except.error PErr.fileError, emit EventKind.fileError (some p) s)
  else
    (Except.ok (),
      { s with fs := { s.fs with links := s.fs.links ++ [(p, target)] } })

/-! ## Collection import (lines 450-520) -/

/-- The nested _sequential_imports (lines 489-491): invoke each task
function in listing order; an exception from a task propagates at once,
leaving the later tasks unrun.  A task is identified by its child path. -/
def sequentialImports (env : Env) (tasks : List FPath) (s : St) : Res Unit :=
  match tasks with
  | [] => (Except.ok (), s)
  | t :: rest =>
    let s := { s with execLog := s.execLog ++ [t] }
    if env.taskRuns t then sequentialImports env rest s
    else (Except.error PErr.taskError, s)

/-- FileImporter.import_collection (lines 450-520).  Every discovered
child is notified as REGISTER_FILE; task construction failure for a child
(possible only on the Cytomine branch, where the per-child listener is
built) is swallowed, dropping that child from the batch.  With the task
queue disabled the batch runs sequentially in-process; otherwise the batch
is submitted as one group and joined, and if that raises the whole batch
is rerun sequentially.  The imported accumulator is never appended to, so
the returned list is always empty. -/
def importCollection (env : Env) (collection : FPath) (preferCopy : Bool)
    (s : St) : Res (List FPath) :=
  let children := env.extractedChildren collection
  let s := children.foldl (fun t c => emit EventKind.registerFile (some c) t) s
  let tasks :=
    children.filter fun c => !(env.hasCytomine && env.childListenerFails c)
  if env.taskQueueEnabled = false then
    step (sequentialImports env tasks s) fun _ s => (Except.ok [], s)
  else
    match env.groupOutcome with
    | GroupOutcome.allOk =>
      (Except.ok [], { s with execLog := s.execLog ++ tasks })
    | GroupOutcome.failAfter ex =>
      let s :=
        { s with execLog := s.execLog ++ ex.filterMap fun i => tasks.get? i }
      step (sequentialImports env tasks s) fun _ s => (Except.ok [], s)

/-! ## Spatial and histogram deployment (lines 325-418) -/

/-- The code shared by both deploy_spatial branches (lines 389-391): the
asserted spatial-role postcondition and the final END_SPATIAL_DEPLOY
notification. -/
def finishSpatial (img : Image) (s : St) : Res Image :=
  if hasSpatialRole img.path then
    (Except.ok img, emit EventKind.endSpatialDeploy (some img.path) s)
  else
    (Except.error PErr.assertionFailed, s)

/-- FileImporter.deploy_spatial (lines 325-391).  With conversion: the
whole conversion block sits in a try whose handler notifies
ERROR_CONVERSION and raises FormatConversionProblem, so a conversion that
reports failure or leaves no output notifies ERROR_CONVERSION twice (once
at line 344, once in the handler) and still raises the conversion-problem
kind; then format re-detection and the integrity check on the converted
file.  Without conversion: the spatial path is a symlink to the original
path. -/
def deploySpatial (env : Env) (fmt : AFormat) (s : St) : Res Image :=
  let s := emit EventKind.startSpatialDeploy s.originalPath s
  let pdir := s.processedDir.getD []
  if fmt.needConversion then
    let spath := pdir ++ [⟨SPATIAL_STEM, some fmt.conversionIdentifier⟩]
    let s := { s with spatialPath := some spath }
    let s := emit EventKind.startConversion (some spath) s
    match env.convert fmt spath with
    | ConvOutcome.raised =>
      (Except.error PErr.formatConversion,
        emit EventKind.errorConversion (some spath) s)
    | ConvOutcome.ret r produced =>
      let s :=
        match produced with
        | some c =>
          { s with fs := { s.fs with files := s.fs.files ++ [(spath, c)] } }
        | none => s
      if r = false ∨ fsExists s.fs spath = false then
        (Except.error PErr.formatConversion,
          emit EventKind.errorConversion (some spath)
            (emit EventKind.errorConversion (some spath) s))
      else
        let s := emit EventKind.endConversion (some spath) s
        let s := emit EventKind.startFormatDetection (some spath) s
        match env.matchSpatial spath with
        | none =>
          (Except.error PErr.noMatchingFormat,
            emit EventKind.errorNoFormat (some spath) s)
        | some sf =>
          let s := emit EventKind.endFormatDetection (some spath) s
          let s := { s with spatial := some ⟨spath, sf⟩ }
          let s := emit EventKind.startIntegrityCheck (some spath) s
          if env.checkIntegrity spath sf ≠ [] then
            (Except.error PErr.imageParsing,
              emit EventKind.errorIntegrityCheck (some spath) s)
          else
            let s := emit EventKind.endIntegrityCheck (some spath) s
            finishSpatial ⟨spath, sf⟩ s
  else
    let spath := pdir ++ [⟨SPATIAL_STEM, some fmt.identifier⟩]
    step
      (symlinkOp env spath (s.originalPath.getD [])
        { s with spatialPath := some spath }) fun _ s =>
      let s := { s with spatial := some ⟨spath, fmt⟩ }
      finishSpatial ⟨spath, fmt⟩ s

/-- FileImporter.deploy_histogram (lines 393-418): build the histogram
artifact at the fixed stem under the processed directory; a build failure
is notified as ERROR_HISTOGRAM and raised as the file-error kind; the
histogram role is asserted. -/
def deployHistogram (env : Env) (s : St) : Res Unit :=
  let pdir := s.processedDir.getD []
  let hpath := pdir ++ [⟨HISTOGRAM_STEM, none⟩]
  let s := { s with histogramPath := some hpath }
  let s := emit EventKind.startHistogramDeploy (some hpath) s
  match env.buildHistogram hpath with
  | none =>
    (Except.error PErr.fileError, emit EventKind.errorHistogram (some hpath) s)
  | some c =>
    let s := { s with fs := { s.fs with files := s.fs.files ++ [(hpath, c)] } }
    if hasHistogramRole hpath then
      (Except.ok (), emit EventKind.endHistogramDeploy (some hpath) s)
    else
      (Except.error PErr.assertionFailed, s)

/-! ## The run pipeline (lines 166-323) -/

/-- The pipeline tail shared by the plain-file path and the
multi-file-archive path (lines 293-317): the integrity check of the
original representation, spatial deployment or NotImplementedError for a
non-spatial format, histogram deployment, and the terminal success
notification.  opath is the original path, upath the upload path returned
on success. -/
def afterUnpack (env : Env) (fmt : AFormat) (opath upath : FPath)
    (s : St) : Res (List FPath) :=
  let s := emit EventKind.startIntegrityCheck (some opath) s
  let s := { s with original := some ⟨opath, fmt⟩ }
  if env.checkIntegrity opath fmt ≠ [] then
    (Except.error PErr.imageParsing,
      emit EventKind.errorIntegrityCheck (some opath) s)
  else
    let s := emit EventKind.endIntegrityCheck (some opath) s
    if fmt.isSpatial then
      step (deploySpatial env fmt s) fun _ s =>
      step (deployHistogram env s) fun _ s =>
        let s := emit EventKind.endSuccessfulImport (some upath) s
        (Except.ok [upath], s)
    else
      (Except.error PErr.notImplemented, s)

/-- Format detection onward (lines 220-317): detection with the archive
fallback, processed-dir creation, the original path; for an archive,
unpacking with the multi-file re-detection branch and the collection
branch (which returns the import_collection result directly, line 288);
for a plain file, the original symlink with the asserted original role;
then the shared pipeline tail. -/
def detectPhase (env : Env) (preferCopy : Bool) (udir upath : FPath)
    (s : St) : Res (List FPath) :=
  let s := emit EventKind.startFormatDetection (some upath) s
  let fmt0 := env.matchImportable upath
  let arch := if fmt0.isNone then env.archiveFrom upath else none
  let fmt1 :=
    match fmt0 with
    | some f => some f
    | none => Option.map ArchiveModel.format arch
  match fmt1 with
  | none =>
    (Except.error PErr.noMatchingFormat,
      emit EventKind.errorNoFormat (some upath) s)
  | some fmt =>
    let s := emit EventKind.endFormatDetection (some upath) s
    let pdir := udir ++ [⟨PROCESSED_DIR, none⟩]
    step (mkdirOp env pdir { s with processedDir := some pdir }) fun _ s =>
    let opath := pdir ++ [⟨ORIGINAL_STEM, some fmt.identifier⟩]
    let s := { s with originalPath := some opath }
    match arch with
    | some a =>
      let s := emit EventKind.startUnpacking (some upath) s
      (match a.extractResult with
       | none =>
         (Except.error PErr.fileError,
           emit EventKind.errorUnpacking (some upath) s)
       | some c =>
         let s :=
           { s with fs := { s.fs with files := s.fs.files ++ [(opath, c)] } }
         match env.matchImportable opath with
         | some fmtB =>
           let opath2 := pdir ++ [⟨ORIGINAL_STEM, some fmtB.identifier⟩]
           step (moveOp env opath opath2 false s) fun _ s =>
           let s := { s with originalPath := some opath2 }
           let s := emit EventKind.endUnpacking (some upath) s
           let s := { s with uploadPath := some opath2 }
           afterUnpack env fmtB opath2 opath2 s
         | none =>
           let edir := pdir ++ [⟨EXTRACTED_DIR, none⟩]
           step (symlinkOp env edir opath { s with extractedDir := some edir })
             fun _ s =>
           step (importCollection env opath preferCopy s) fun coll s =>
             (Except.ok coll, emit EventKind.endUnpacking (some upath) s))
    | none =>
      step (symlinkOp env opath upath s) fun _ s =>
      if hasOriginalRole opath then afterUnpack env fmt opath upath s
      else (Except.error PErr.assertionFailed, s)

/-- The body of FileImporter.run inside the try block (lines 181-317):
sanctioned-source validation, upload directory allocation, relocation, the
provenance symlink for an extracted pending file when the relocation is a
move, then format detection onward. -/
def runBody (env : Env) (pf : FPath) (pn : Option FName)
    (preferCopy : Bool) (s0 : St) : Res (List FPath) :=
  let s := emit EventKind.startDataExtraction (some pf) s0
  if (env.isExtracted pf = false ∧ pf.dropLast ≠ env.writingPath ∧
        pf.dropLast ≠ env.pendingPath) ∨
      fsExists s.fs pf = false then
    (Except.error PErr.filepathNotFound,
      emit EventKind.fileNotFound (some pf) s)
  else
    let udir := env.rootPath ++ [⟨UPLOAD_DIR_TAG ++ env.uniqueName, none⟩]
    step (mkdirOp env udir { s with uploadDir := some udir }) fun _ s =>
    let name :=
      match pn with
      | some n => n
      | none => pf.getLastD ⟨"", none⟩
    let upath := udir ++ [name]
    let s := { s with uploadPath := some upath }
    step (moveOp env pf upath preferCopy s) fun _ s =>
    step
      (if preferCopy = false ∧ env.isExtracted pf = true then
        symlinkOp env pf upath s
      else (Except.ok (), s)) fun _ s =>
    let s := emit EventKind.movedPendingFile (some pf) s
    let s := emit EventKind.endDataExtraction (some upath) s
    detectPhase env preferCopy udir upath s

/-- FileImporter.run (lines 166-323): the body wrapped so that any raised
exception is notified as one final generic FILE_ERROR event, with the
current upload path as subject, before re-raising. -/
def runImport (env : Env) (pf : FPath) (pn : Option FName)
    (preferCopy : Bool) (s0 : St) : Res (List FPath) :=
  match runBody env pf pn preferCopy s0 with
  | (Except.ok v, s) => (Except.ok v, s)
  | (Except.error e, s) => (Except.error e, emit EventKind.fileError s.uploadPath s)

/-! ## Event counting -/

/-- Number of terminal success events in an event list. -/
def successEvents (l : List Event) : Nat :=
  (l.filter fun e => e.kind == EventKind.endSuccessfulImport).length

/-- Number of generic file-error events in an event list. -/
def fileErrorEvents (l : List Event) : Nat :=
  (l.filter fun e => e.kind == EventKind.fileError).length

/-- Number of terminal events (success or generic file-error). -/
def terminalEvents (l : List Event) : Nat :=
  successEvents l + fileErrorEvents l

/-! ## Association-list helpers -/

theorem lookup_append_of_none {α β : Type} [BEq α] {l1 : List (α × β)}
    (l2 : List (α × β)) (k : α) (h : l1.lookup k = none) :
    (l1 ++ l2).lookup k = l2.lookup k := by
  induction l1 with
  | nil => simp
  | cons a t ih =>
    obtain ⟨a1, b1⟩ := a
    cases hk : k == a1 with
    | true => simp [List.lookup, hk] at h
    | false =>
      simp [List.lookup, hk] at h ⊢
      exact ih h

theorem isSome_lookup_append {α β : Type} [BEq α] (l1 l2 : List (α × β))
    (k : α) :
    ((l1 ++ l2).lookup k).isSome =
      ((l1.lookup k).isSome || (l2.lookup k).isSome) := by
  induction l1 with
  | nil => simp
  | cons a t ih =>
    obtain ⟨a1, b1⟩ := a
    cases hk : k == a1 with
    | true => simp [List.lookup, hk]
    | false => simp [List.lookup, hk, ih]

/-- Read the content a path resolves to, following at most fuel symbolic
links. -/
def readBytes (fs : Fs) : Nat → FPath → Option Nat
  | 0, p => fs.files.lookup p
  | n + 1, p =>
    match fs.links.lookup p with
    | some t => readBytes fs n t
    | none => fs.files.lookup p

/-! ## Spatial deployment: claims C6 and C7 -/

/-- The conversion target path built at lines 334-336. -/
def spatialConvTarget (fmt : AFormat) (s : St) : FPath :=
  s.processedDir.getD [] ++ [⟨SPATIAL_STEM, some fmt.conversionIdentifier⟩]

/-- The spatial link path built at lines 384-385. -/
def spatialLinkTarget (fmt : AFormat) (s : St) : FPath :=
  s.processedDir.getD [] ++ [⟨SPATIAL_STEM, some fmt.identifier⟩]

/-- The condition under which the conversion block fails (lines 342-354):
the conversion operation raised internally, or it reported failure, or it
produced no output and the target path did not already exist. -/
def conversionFails (env : Env) (fmt : AFormat) (spath : FPath)
    (fs : Fs) : Bool :=
  match env.convert fmt spath with
  | ConvOutcome.raised => true
  | ConvOutcome.ret r produced =>
    !r || (produced.isNone && !(fsExists fs spath))

theorem hasOriginalRole_concat (p : FPath) (e : Option String) :
    hasOriginalRole (p ++ [⟨ORIGINAL_STEM, e⟩]) = true := by
  simp [hasOriginalRole, List.getLast?_concat]

theorem hasSpatialRole_concat (p : FPath) (e : Option String) :
    hasSpatialRole (p ++ [⟨SPATIAL_STEM, e⟩]) = true := by
  simp [hasSpatialRole, List.getLast?_concat]

theorem hasHistogramRole_concat (p : FPath) (e : Option String) :
    hasHistogramRole (p ++ [⟨HISTOGRAM_STEM, e⟩]) = true := by
  simp [hasHistogramRole, List.getLast?_concat]

/-- C6.  For a format that requires conversion, deploy_spatial raises the
conversion-problem kind if and only if the conversion operation reports
failure, or the target spatial path does not exist afterwards, or the
conversion raises internally;  and when conversion succeeds but
re-detection on the converted output matches no directly-readable format,
it raises the no-matching-format kind instead. -/
theorem C6_deploy_spatial_error_kinds (env : Env) (fmt : AFormat) (s : St)
    (hconv : fmt.needConversion = true) :
    ((deploySpatial env fmt s).1 = Except.error PErr.formatConversion ↔
      conversionFails env fmt (spatialConvTarget fmt s) s.fs = true) ∧
    (conversionFails env fmt (spatialConvTarget fmt s) s.fs = false →
      env.matchSpatial (spatialConvTarget fmt s) = none →
      (deploySpatial env fmt s).1 = Except.error PErr.noMatchingFormat) := by
  unfold deploySpatial conversionFails spatialConvTarget
  simp only [emit, hconv, if_true]
  rcases hc : env.convert fmt
      (s.processedDir.getD [] ++ [⟨SPATIAL_STEM, some fmt.conversionIdentifier⟩])
    with _ | ⟨r, produced⟩
  · simp [hc]
  · cases r with
    | false =>
      cases produced with
      | none => simp [hc]
      | some c => simp [hc]
    | true =>
      cases produced with
      | none =>
        cases hex : fsExists s.fs
            (s.processedDir.getD [] ++
              [⟨SPATIAL_STEM, some fmt.conversionIdentifier⟩]) with
        | false => simp [hc, hex]
        | true =>
          rcases hm : env.matchSpatial
              (s.processedDir.getD [] ++
                [⟨SPATIAL_STEM, some fmt.conversionIdentifier⟩])
            with _ | sf
          · simp [hc, hex, hm]
          · by_cases hi : env.checkIntegrity
                (s.processedDir.getD [] ++
                  [⟨SPATIAL_STEM, some fmt.conversionIdentifier⟩]) sf = []
            · simp [hc, hex, hm, hi, finishSpatial, hasSpatialRole_concat]
            · simp [hc, hex, hm, hi]
      | some c =>
        have hex : fsExists
            { files :=
                s.fs.files ++
                  [(s.processedDir.getD [] ++
                      [⟨SPATIAL_STEM, some fmt.conversionIdentifier⟩], c)],
              links := s.fs.links, dirs := s.fs.dirs }
            (s.processedDir.getD [] ++
              [⟨SPATIAL_STEM, some fmt.conversionIdentifier⟩]) = true := by
          simp [fsExists, isSome_lookup_append, List.lookup]
        rcases hm : env.matchSpatial
            (s.processedDir.getD [] ++
              [⟨SPATIAL_STEM, some fmt.conversionIdentifier⟩])
          with _ | sf
        · simp [hc, hex, hm]
        · by_cases hi : env.checkIntegrity
              (s.processedDir.getD [] ++
                [⟨SPATIAL_STEM, some fmt.conversionIdentifier⟩]) sf = []
          · simp [hc, hex, hm, hi, finishSpatial, hasSpatialRole_concat]
          · simp [hc, hex, hm, hi]

/-- A benign concrete environment used by witnesses: every oracle is
trivial, no filesystem primitive fails, the task queue is disabled. -/
def envBase : Env where
  rootPath := []
  pendingPath := []
  writingPath := []
  uniqueName := "u"
  isExtracted := fun _ => false
  matchImportable := fun _ => none
  matchSpatial := fun _ => none
  archiveFrom := fun _ => none
  checkIntegrity := fun _ _ => []
  convert := fun _ _ => ConvOutcome.ret true (some 1)
  buildHistogram := fun _ => some 1
  extractedChildren := fun _ => []
  hasCytomine := false
  childListenerFails := fun _ => false
  taskQueueEnabled := false
  groupOutcome := GroupOutcome.allOk
  taskRuns := fun _ => true
  mkdirFails := fun _ => false
  moveFails := fun _ => false
  symlinkFails := fun _ => false

/-- An empty initial state used by witnesses. -/
def stEmpty : St where
  fs := ⟨[], [], []⟩
  events := []

/-- A concrete format that requires conversion, whose conversion reports
failure in the environment of the C6 witness. -/
def fmtConv : AFormat := ⟨"fmt", true, true, "conv"⟩

/-- The C6 witness environment: conversion reports failure and produces no
output. -/
def envConvFail : Env :=
  { envBase with convert := fun _ _ => ConvOutcome.ret false none }

/-- C6, witness at a concrete environment whose conversion operation
reports failure. -/
theorem C6_deploy_spatial_error_kinds_witness :
    fmtConv.needConversion = true ∧
    conversionFails envConvFail fmtConv (spatialConvTarget fmtConv stEmpty)
      stEmpty.fs = true ∧
    (deploySpatial envConvFail fmtConv stEmpty).1 =
      Except.error PErr.formatConversion := by
  refine ⟨rfl, rfl, ?_⟩
  exact ((C6_deploy_spatial_error_kinds envConvFail fmtConv stEmpty rfl).1).mpr
    rfl

/-! ## Counting homomorphisms for event lists -/

theorem successEvents_append (l1 l2 : List Event) :
    successEvents (l1 ++ l2) = successEvents l1 + successEvents l2 := by
  simp [successEvents, List.filter_append]

theorem fileErrorEvents_append (l1 l2 : List Event) :
    fileErrorEvents (l1 ++ l2) = fileErrorEvents l1 + fileErrorEvents l2 := by
  simp [fileErrorEvents, List.filter_append]

theorem successEvents_nil : successEvents [] = 0 := rfl

theorem fileErrorEvents_nil : fileErrorEvents [] = 0 := rfl

theorem successEvents_cons (k : EventKind) (subj : Option FPath)
    (l : List Event) :
    successEvents (⟨k, subj⟩ :: l) =
      (if k = EventKind.endSuccessfulImport then 1 else 0) +
        successEvents l := by
  cases k <;> simp [successEvents, Nat.add_comm]

theorem fileErrorEvents_cons (k : EventKind) (subj : Option FPath)
    (l : List Event) :
    fileErrorEvents (⟨k, subj⟩ :: l) =
      (if k = EventKind.fileError then 1 else 0) + fileErrorEvents l := by
  cases k <;> simp [fileErrorEvents, Nat.add_comm]

/-- Behavioural envelope of deploy_spatial used to compose the run-level
proofs: it emits no terminal success event; on a normal return it emits no
generic file-error event either; existing symbolic links survive; and an
exception out of it is one of the file-error, conversion-problem,
no-matching-format or image-parsing kinds — in particular the asserted
spatial-role postcondition never fails. -/
theorem deploySpatial_spec (env : Env) (g : AFormat) (t : St) :
    successEvents (deploySpatial env g t).2.events = successEvents t.events ∧
    (∀ v, (deploySpatial env g t).1 = Except.ok v →
      fileErrorEvents (deploySpatial env g t).2.events =
        fileErrorEvents t.events) ∧
    (∀ x, x ∈ t.fs.links → x ∈ (deploySpatial env g t).2.fs.links) ∧
    (∀ e, (deploySpatial env g t).1 = Except.error e →
      e = PErr.fileError ∨ e = PErr.formatConversion ∨
      e = PErr.noMatchingFormat ∨ e = PErr.imageParsing) := by
  unfold deploySpatial
  by_cases hg : g.needConversion = true
  · simp only [hg, if_true, emit]
    rcases hc : env.convert g
        (t.processedDir.getD [] ++
          [⟨SPATIAL_STEM, some g.conversionIdentifier⟩]) with _ | ⟨r, produced⟩
    · simp [hc, successEvents_append, successEvents_cons, successEvents_nil,
        fileErrorEvents_append, fileErrorEvents_cons, fileErrorEvents_nil]
    · rcases r with _ | _
      · rcases produced with _ | c <;>
          simp [hc, successEvents_append, successEvents_cons,
            successEvents_nil, fileErrorEvents_append, fileErrorEvents_cons,
            fileErrorEvents_nil]
      · rcases produced with _ | c
        · cases hex : fsExists t.fs
              (t.processedDir.getD [] ++
                [⟨SPATIAL_STEM, some g.conversionIdentifier⟩]) with
          | false =>
            simp [hc, hex, successEvents_append, successEvents_cons, successEvents_nil,
              fileErrorEvents_append, fileErrorEvents_cons,
              fileErrorEvents_nil]
          | true =>
            rcases hm : env.matchSpatial
                (t.processedDir.getD [] ++
                  [⟨SPATIAL_STEM, some g.conversionIdentifier⟩]) with _ | sf
            · simp [hc, hex, hm, successEvents_append, successEvents_cons, successEvents_nil,
                fileErrorEvents_append, fileErrorEvents_cons,
                fileErrorEvents_nil]
            · by_cases hi : env.checkIntegrity
                  (t.processedDir.getD [] ++
                    [⟨SPATIAL_STEM, some g.conversionIdentifier⟩]) sf = [] <;>
                simp [hc, hex, hm, hi, finishSpatial, hasSpatialRole_concat,
                  emit, successEvents_append, successEvents_cons,
                  successEvents_nil, fileErrorEvents_append,
                  fileErrorEvents_cons, fileErrorEvents_nil]
        · rcases hm : env.matchSpatial
              (t.processedDir.getD [] ++
                [⟨SPATIAL_STEM, some g.conversionIdentifier⟩]) with _ | sf
          · simp [hc, hm, fsExists, isSome_lookup_append, List.lookup,
              successEvents_append, successEvents_cons, successEvents_nil,
              fileErrorEvents_append, fileErrorEvents_cons,
              fileErrorEvents_nil]
          · by_cases hi : env.checkIntegrity
                (t.processedDir.getD [] ++
                  [⟨SPATIAL_STEM, some g.conversionIdentifier⟩]) sf = [] <;>
              simp [hc, hm, hi, finishSpatial, hasSpatialRole_concat, fsExists,
                isSome_lookup_append, List.lookup, emit, successEvents_append,
                successEvents_cons, successEvents_nil, fileErrorEvents_append,
                fileErrorEvents_cons, fileErrorEvents_nil]
  · simp only [hg, if_false, Bool.not_eq_true] at hg ⊢
    simp only [hg, if_false, emit]
    by_cases hs : env.symlinkFails
        (t.processedDir.getD [] ++ [⟨SPATIAL_STEM, some g.identifier⟩]) = true
    · simp [step, symlinkOp, hs, emit, successEvents_append,
        successEvents_cons, successEvents_nil, fileErrorEvents_append,
        fileErrorEvents_cons, fileErrorEvents_nil]
    · simp only [Bool.not_eq_true] at hs
      simp [step, symlinkOp, hs, finishSpatial, hasSpatialRole_concat, emit,
        successEvents_append, successEvents_cons, successEvents_nil,
        fileErrorEvents_append, fileErrorEvents_cons, fileErrorEvents_nil]
      exact fun a b hab => Or.inl hab

/-- C7.  For an import of a format that needs no conversion (and whose
symlink primitive does not fail at the OS level), deploy_spatial
establishes the spatial representation as a symbolic link to the original
representation: it returns the spatial image, file contents are unchanged
(no new artifact bytes), exactly one link from the spatial path to the
original path is recorded, and — when the spatial path was not already a
link — resolving content through the spatial path dereferences to the
original path, so the two paths resolve to the same underlying bytes.  The
spatial path carries the spatial role, and on no input whatsoever does
deploy_spatial fail its asserted spatial-role postcondition. -/
theorem C7_deploy_spatial_link (env : Env) (fmt : AFormat) (s : St)
    (hno : fmt.needConversion = false)
    (hsym : env.symlinkFails (spatialLinkTarget fmt s) = false) :
    (deploySpatial env fmt s).1 =
      Except.ok ⟨spatialLinkTarget fmt s, fmt⟩ ∧
    (deploySpatial env fmt s).2.fs.files = s.fs.files ∧
    (deploySpatial env fmt s).2.fs.links =
      s.fs.links ++ [(spatialLinkTarget fmt s, s.originalPath.getD [])] ∧
    (s.fs.links.lookup (spatialLinkTarget fmt s) = none →
      ∀ n, readBytes (deploySpatial env fmt s).2.fs (n + 1)
          (spatialLinkTarget fmt s) =
        readBytes (deploySpatial env fmt s).2.fs n
          (s.originalPath.getD [])) ∧
    hasSpatialRole (spatialLinkTarget fmt s) = true ∧
    (∀ g : AFormat, ∀ t : St,
      (deploySpatial env g t).1 ≠ Except.error PErr.assertionFailed) := by
  simp only [spatialLinkTarget] at hsym ⊢
  have hrole := hasSpatialRole_concat (s.processedDir.getD [])
    (some fmt.identifier)
  have hmain :
      (deploySpatial env fmt s).1 =
        Except.ok ⟨s.processedDir.getD [] ++
          [⟨SPATIAL_STEM, some fmt.identifier⟩], fmt⟩ ∧
      (deploySpatial env fmt s).2.fs.files = s.fs.files ∧
      (deploySpatial env fmt s).2.fs.links =
        s.fs.links ++
          [(s.processedDir.getD [] ++ [⟨SPATIAL_STEM, some fmt.identifier⟩],
            s.originalPath.getD [])] := by
    unfold deploySpatial
    simp [hno, emit, step, symlinkOp, hsym, finishSpatial, hrole]
  refine ⟨hmain.1, hmain.2.1, hmain.2.2, ?_, hrole, ?_⟩
  · intro hfresh n
    have hl : ((deploySpatial env fmt s).2.fs.links).lookup
        (s.processedDir.getD [] ++ [⟨SPATIAL_STEM, some fmt.identifier⟩]) =
        some (s.originalPath.getD []) := by
      rw [hmain.2.2, lookup_append_of_none _ _ hfresh]
      simp [List.lookup]
    simp only [readBytes, hl]
  · intro g t habs
    rcases (deploySpatial_spec env g t).2.2.2 PErr.assertionFailed habs
      with h | h | h | h <;> exact PErr.noConfusion h

/-- C7, witness at a concrete no-conversion format, with the original path
pointing at a concrete uploaded file. -/
def fmtPlain : AFormat := ⟨"tif", true, false, ""⟩

/-- The C7 witness state: a processed directory and an original path that
is itself a link to the upload file holding content 42. -/
def stC7 : St where
  fs :=
    ⟨[([⟨"up", none⟩], 42)],
      [([⟨"proc", none⟩, ⟨ORIGINAL_STEM, some "tif"⟩], [⟨"up", none⟩])], []⟩
  events := []
  processedDir := some [⟨"proc", none⟩]
  originalPath := some [⟨"proc", none⟩, ⟨ORIGINAL_STEM, some "tif"⟩]

theorem C7_deploy_spatial_link_witness :
    fmtPlain.needConversion = false ∧
    (deploySpatial envBase fmtPlain stC7).1 =
      Except.ok ⟨spatialLinkTarget fmtPlain stC7, fmtPlain⟩ ∧
    (deploySpatial envBase fmtPlain stC7).2.fs.files = stC7.fs.files ∧
    readBytes (deploySpatial envBase fmtPlain stC7).2.fs 2
        (spatialLinkTarget fmtPlain stC7) = some 42 ∧
    readBytes (deploySpatial envBase fmtPlain stC7).2.fs 1
        (stC7.originalPath.getD []) = some 42 := by
  have h := C7_deploy_spatial_link envBase fmtPlain stC7 rfl rfl
  refine ⟨rfl, h.1, h.2.1, ?_, ?_⟩
  · rw [h.2.2.2.1 (by rfl) 1]
    decide
  · decide

/-! ## Collection import: claims C2 and C4 -/

/-- The batch of tasks import_collection constructs (lines 468-487): one
per discovered child, dropping a child whose per-child listener
construction fails — which can only happen on the Cytomine branch. -/
def collectionTasks (env : Env) (c : FPath) : List FPath :=
  (env.extractedChildren c).filter fun ch =>
    !(env.hasCytomine && env.childListenerFails ch)

theorem length_filter_partition {α : Type} (p : α → Bool) (l : List α) :
    (l.filter p).length + (l.filter fun a => !p a).length = l.length := by
  induction l with
  | nil => simp
  | cons a t ih => cases h : p a <;> simp [h] <;> omega

theorem sequentialImports_ok (env : Env) :
    ∀ tasks : List FPath, (∀ t ∈ tasks, env.taskRuns t = true) →
      ∀ s, sequentialImports env tasks s =
        (Except.ok (), { s with execLog := s.execLog ++ tasks }) := by
  intro tasks
  induction tasks with
  | nil => intro _ s; simp [sequentialImports]
  | cons t rest ih =>
    intro hall s
    have ht : env.taskRuns t = true := hall t (by simp)
    rw [sequentialImports]
    simp only [ht, if_true]
    rw [ih (fun x hx => hall x (by simp [hx]))]
    simp

theorem sequentialImports_frame (env : Env) :
    ∀ (tasks : List FPath) (s : St),
      (sequentialImports env tasks s).2.events = s.events ∧
      (sequentialImports env tasks s).2.fs = s.fs ∧
      (∀ e, (sequentialImports env tasks s).1 = Except.error e →
        e = PErr.taskError) := by
  intro tasks
  induction tasks with
  | nil => intro s; simp [sequentialImports]
  | cons t rest ih =>
    intro s
    rw [sequentialImports]
    cases h : env.taskRuns t with
    | true =>
      have hi := ih { s with execLog := s.execLog ++ [t] }
      simpa using hi
    | false => simp

theorem foldl_emit_registerFile (l : List FPath) :
    ∀ s : St,
      l.foldl (fun t c => emit EventKind.registerFile (some c) t) s =
        { s with events :=
            s.events ++ l.map fun c => ⟨EventKind.registerFile, some c⟩ } := by
  induction l with
  | nil => intro s; simp
  | cons c rest ih =>
    intro s
    rw [List.foldl_cons, ih]
    simp [emit, List.append_assoc]

/-- Envelope of the dispatch tail shared by the sequential branch and the
fallback branch of import_collection: running the batch sequentially and
returning the (empty) imported list preserves events and filesystem,
returns the empty list on success, and raises only a task exception. -/
theorem stepSeq_spec (env : Env) (T : List FPath) (S : St) :
    (step (sequentialImports env T S)
      fun _ s => (Except.ok ([] : List FPath), s)).2.events = S.events ∧
    (step (sequentialImports env T S)
      fun _ s => (Except.ok ([] : List FPath), s)).2.fs = S.fs ∧
    (∀ l, (step (sequentialImports env T S)
      fun _ s => (Except.ok ([] : List FPath), s)).1 = Except.ok l →
        l = []) ∧
    (∀ e, (step (sequentialImports env T S)
      fun _ s => (Except.ok ([] : List FPath), s)).1 = Except.error e →
        e = PErr.taskError) := by
  have hf := sequentialImports_frame env T S
  rcases hseq : sequentialImports env T S with ⟨r, s1⟩
  rw [hseq] at hf
  cases r with
  | ok a =>
    simp only [step]
    exact ⟨hf.1, hf.2.1, fun l hl => by simpa using hl.symm, by simp⟩
  | error e =>
    simp only [step]
    refine ⟨hf.1, hf.2.1, by simp, fun e1 he => ?_⟩
    injection he with h2
    exact h2 ▸ hf.2.2 e rfl

/-- Behavioural envelope of import_collection: it emits exactly the
REGISTER_FILE events for the discovered children, leaves the filesystem
unchanged, returns the empty list on a normal return, and can raise only
the exception of an in-process child task. -/
theorem importCollection_spec (env : Env) (c : FPath) (pc : Bool) (s : St) :
    (importCollection env c pc s).2.events =
      s.events ++ (env.extractedChildren c).map
        (fun ch => ⟨EventKind.registerFile, some ch⟩) ∧
    (importCollection env c pc s).2.fs = s.fs ∧
    (∀ l, (importCollection env c pc s).1 = Except.ok l → l = []) ∧
    (∀ e, (importCollection env c pc s).1 = Except.error e →
      e = PErr.taskError) := by
  simp only [importCollection]
  rw [foldl_emit_registerFile]
  by_cases hq : env.taskQueueEnabled = false
  · rw [if_pos hq]
    exact ⟨(stepSeq_spec env _ _).1, (stepSeq_spec env _ _).2.1,
      (stepSeq_spec env _ _).2.2.1, (stepSeq_spec env _ _).2.2.2⟩
  · rw [if_neg hq]
    cases hgo : env.groupOutcome with
    | allOk => simp
    | failAfter ex =>
      exact ⟨(stepSeq_spec env _ _).1, (stepSeq_spec env _ _).2.1,
        (stepSeq_spec env _ _).2.2.1, (stepSeq_spec env _ _).2.2.2⟩

/-- C2, amended.  When the per-child listener construction fails for some
children (possible only with a Cytomine listener active), those children
are silently dropped from the batch and no exception propagates out of
import_collection;  with the task queue disabled and the surviving tasks
succeeding, the K minus F surviving children (F the number of construction
failures, here F = 1) are each executed once, in listing order — but the
call returns the empty list, not the set of imported children: the
imported accumulator (line 462) is never appended to. -/
theorem C2_import_collection_amended (env : Env) (c : FPath) (s : St)
    (hcy : env.hasCytomine = true)
    (hq : env.taskQueueEnabled = false)
    (hrun : ∀ p, env.taskRuns p = true) :
    (importCollection env c false s).1 = Except.ok [] ∧
    (importCollection env c false s).2.execLog =
      s.execLog ++ (env.extractedChildren c).filter
        (fun ch => !env.childListenerFails ch) ∧
    (((env.extractedChildren c).filter
        fun ch => env.childListenerFails ch).length = 1 →
      ((env.extractedChildren c).filter
        fun ch => !env.childListenerFails ch).length =
        (env.extractedChildren c).length - 1) := by
  simp only [importCollection]
  rw [foldl_emit_registerFile, if_pos hq,
    sequentialImports_ok env _ (fun t _ => hrun t)]
  refine ⟨by simp [step], by simp [step, hcy], fun h1 => ?_⟩
  have hp := length_filter_partition
    (fun ch => env.childListenerFails ch) (env.extractedChildren c)
  omega

/-- The C2 and C4 environment: two extracted children. -/
def envTwoChildren : Env :=
  { envBase with
    extractedChildren := fun _ => [[⟨"c1", none⟩], [⟨"c2", none⟩]] }

/-- The C2 counterexample environment: a Cytomine listener is active and
listener construction fails exactly for the first child. -/
def envC2 : Env :=
  { envTwoChildren with
    hasCytomine := true,
    childListenerFails := fun p => p == [⟨"c1", none⟩] }

/-- C2, counterexample.  A collection of K = 2 children where task
construction fails for exactly one child: no exception propagates, but the
pipeline returns the empty list — not a set of size K minus 1 = 1 — since
the imported accumulator of import_collection is never populated. -/
theorem C2_import_collection_counterexample :
    ((envC2.extractedChildren []).filter
      (fun ch => envC2.childListenerFails ch)).length = 1 ∧
    (envC2.extractedChildren []).length = 2 ∧
    (importCollection envC2 [] false stEmpty).1 = Except.ok [] ∧
    ([] : List FPath).length ≠ (envC2.extractedChildren []).length - 1 := by
  exact ⟨by decide, by decide, rfl, by decide⟩

/-- C2, witness for the amended theorem at the concrete two-child
environment. -/
theorem C2_import_collection_amended_witness :
    (importCollection envC2 [] false stEmpty).1 = Except.ok [] ∧
    (importCollection envC2 [] false stEmpty).2.execLog =
      [[⟨"c2", none⟩]] ∧
    ((envC2.extractedChildren []).filter
      (fun ch => !envC2.childListenerFails ch)).length =
      (envC2.extractedChildren []).length - 1 := by
  have h := C2_import_collection_amended envC2 [] stEmpty rfl rfl
    (fun p => rfl)
  exact ⟨h.1, by rw [h.2.1]; rfl, h.2.2 (by decide)⟩

/-- C4, amended.  With the task queue disabled, the constructed batch runs
sequentially in-process in listing order, each task exactly once (provided
none raises).  With the queue enabled: if submission and join succeed the
workers execute each task exactly once;  if they raise, the whole batch is
rerun sequentially, so every task is executed at least once, and any task
the workers had already executed before the failure is executed a second
time — the original claim that no task is ever executed twice across the
concurrent attempt and the fallback does not hold. -/
theorem C4_import_collection_fallback (env : Env) (c : FPath) (s : St)
    (hrun : ∀ p, env.taskRuns p = true) :
    (env.taskQueueEnabled = false →
      (importCollection env c false s).1 = Except.ok [] ∧
      (importCollection env c false s).2.execLog =
        s.execLog ++ collectionTasks env c) ∧
    (env.taskQueueEnabled = true → env.groupOutcome = GroupOutcome.allOk →
      (importCollection env c false s).1 = Except.ok [] ∧
      (importCollection env c false s).2.execLog =
        s.execLog ++ collectionTasks env c) ∧
    (∀ ex, env.taskQueueEnabled = true →
      env.groupOutcome = GroupOutcome.failAfter ex →
      (importCollection env c false s).1 = Except.ok [] ∧
      (importCollection env c false s).2.execLog =
        s.execLog ++
          ex.filterMap (fun i => (collectionTasks env c).get? i) ++
          collectionTasks env c) := by
  refine ⟨fun hq => ?_, fun hq hgo => ?_, fun ex hq hgo => ?_⟩
  · simp only [importCollection]
    rw [foldl_emit_registerFile, if_pos hq,
      sequentialImports_ok env _ (fun t _ => hrun t)]
    exact ⟨by simp [step], by simp [step, collectionTasks]⟩
  · simp only [importCollection]
    rw [foldl_emit_registerFile, if_neg (by simp [hq])]
    simp only [hgo]
    exact ⟨by simp, by simp [collectionTasks]⟩
  · simp only [importCollection]
    rw [foldl_emit_registerFile, if_neg (by simp [hq])]
    simp only [hgo]
    rw [sequentialImports_ok env _ (fun t _ => hrun t)]
    exact ⟨by simp [step],
      by simp [step, collectionTasks, List.append_assoc]⟩

/-- The C4 counterexample environment: the task queue is enabled and the
group join raises after the workers have executed the task at index 0. -/
def envC4 : Env :=
  { envTwoChildren with
    taskQueueEnabled := true,
    groupOutcome := GroupOutcome.failAfter [0] }

/-- C4, counterexample.  The dispatch raises during the blocking join
after the first task has already been executed by a worker (celery get
re-raises a child exception after siblings ran); the sequential fallback
then reruns the whole batch, so the first task is executed twice —
contradicting the claim that no task is executed twice across the
concurrent attempt and the sequential fallback. -/
theorem C4_import_collection_counterexample :
    (importCollection envC4 [] false stEmpty).1 = Except.ok [] ∧
    (importCollection envC4 [] false stEmpty).2.execLog =
      [[⟨"c1", none⟩], [⟨"c1", none⟩], [⟨"c2", none⟩]] ∧
    (importCollection envC4 [] false stEmpty).2.execLog.count
      [⟨"c1", none⟩] = 2 := by
  exact ⟨rfl, rfl, rfl⟩

/-- C4, witness for the amended theorem at the concrete two-child
environment with a failing join. -/
theorem C4_import_collection_fallback_witness :
    (importCollection envC4 [] false stEmpty).1 = Except.ok [] ∧
    (importCollection envC4 [] false stEmpty).2.execLog =
      [0].filterMap (fun i => (collectionTasks envC4 []).get? i) ++
        collectionTasks envC4 [] := by
  have h := (C4_import_collection_fallback envC4 [] stEmpty
    (fun p => rfl)).2.2 [0] rfl rfl
  exact ⟨h.1, by rw [h.2]; rfl⟩

/-! ## Run-level envelopes -/

/-- Behavioural envelope of deploy_histogram: no terminal success event,
no generic file-error event on a normal return, links untouched, and the
only exception kind out of it is file-error (its asserted histogram-role
postcondition never fails, the built path carrying the fixed histogram
stem). -/
theorem deployHistogram_spec (env : Env) (t : St) :
    successEvents (deployHistogram env t).2.events = successEvents t.events ∧
    (∀ v, (deployHistogram env t).1 = Except.ok v →
      fileErrorEvents (deployHistogram env t).2.events =
        fileErrorEvents t.events) ∧
    (deployHistogram env t).2.fs.links = t.fs.links ∧
    (∀ e, (deployHistogram env t).1 = Except.error e →
      e = PErr.fileError) := by
  simp only [deployHistogram, emit]
  cases hb : env.buildHistogram
      (t.processedDir.getD [] ++ [⟨HISTOGRAM_STEM, none⟩]) with
  | none =>
    simp [hb, successEvents_append, successEvents_cons, successEvents_nil,
      fileErrorEvents_append, fileErrorEvents_cons, fileErrorEvents_nil]
  | some c =>
    simp [hb, hasHistogramRole_concat, successEvents_append,
      successEvents_cons, successEvents_nil, fileErrorEvents_append,
      fileErrorEvents_cons, fileErrorEvents_nil]

/-- Envelope of the deployment tail of the pipeline (spatial deployment,
histogram deployment, terminal success notification), for an arbitrary
start state. -/
theorem deployTail_spec (env : Env) (g : AFormat) (up : FPath) (t1 : St) :
    (∀ v, (step (deploySpatial env g t1) fun _ s =>
        step (deployHistogram env s) fun _ s =>
          (Except.ok [up],
            emit EventKind.endSuccessfulImport (some up) s)).1 =
          Except.ok v →
      v = [up] ∧
      successEvents (step (deploySpatial env g t1) fun _ s =>
          step (deployHistogram env s) fun _ s =>
            (Except.ok [up],
              emit EventKind.endSuccessfulImport (some up) s)).2.events =
        successEvents t1.events + 1 ∧
      fileErrorEvents (step (deploySpatial env g t1) fun _ s =>
          step (deployHistogram env s) fun _ s =>
            (Except.ok [up],
              emit EventKind.endSuccessfulImport (some up) s)).2.events =
        fileErrorEvents t1.events ∧
      (step (deploySpatial env g t1) fun _ s =>
          step (deployHistogram env s) fun _ s =>
            (Except.ok [up],
              emit EventKind.endSuccessfulImport
                (some up) s)).2.events.getLast? =
        some ⟨EventKind.endSuccessfulImport, some up⟩) ∧
    (∀ e, (step (deploySpatial env g t1) fun _ s =>
        step (deployHistogram env s) fun _ s =>
          (Except.ok [up],
            emit EventKind.endSuccessfulImport (some up) s)).1 =
          Except.error e →
      successEvents (step (deploySpatial env g t1) fun _ s =>
          step (deployHistogram env s) fun _ s =>
            (Except.ok [up],
              emit EventKind.endSuccessfulImport (some up) s)).2.events =
        successEvents t1.events ∧
      e ≠ PErr.filepathNotFound) ∧
    (∀ x, x ∈ t1.fs.links →
      x ∈ (step (deploySpatial env g t1) fun _ s =>
          step (deployHistogram env s) fun _ s =>
            (Except.ok [up],
              emit EventKind.endSuccessfulImport (some up) s)).2.fs.links) := by
  have hds := deploySpatial_spec env g t1
  rcases hd : deploySpatial env g t1 with ⟨r1, s1⟩
  rw [hd] at hds
  cases r1 with
  | error e =>
    simp only [step]
    refine ⟨by simp, fun e1 he1 => ?_, fun x hx => hds.2.2.1 x hx⟩
    injection he1 with he1
    subst he1
    refine ⟨hds.1, ?_⟩
    rcases hds.2.2.2 e rfl with h | h | h | h <;> simp [h]
  | ok img =>
    simp only [step]
    have hdh := deployHistogram_spec env s1
    rcases hh : deployHistogram env s1 with ⟨r2, s2⟩
    rw [hh] at hdh
    cases r2 with
    | error e =>
      refine ⟨fun v hv => absurd hv (by simp), fun e1 he1 => ?_,
        fun x hx => ?_⟩
      · have he2 : (Except.error e : Except PErr (List FPath)) =
            Except.error e1 := he1
        injection he2 with he2
        subst he2
        refine ⟨?_, ?_⟩
        · show successEvents s2.events = successEvents t1.events
          rw [hdh.1, hds.1]
        · rw [hdh.2.2.2 e rfl]
          simp
      · show x ∈ s2.fs.links
        rw [hdh.2.2.1]
        exact hds.2.2.1 x hx
    | ok u =>
      refine ⟨fun v hv => ?_, fun e1 he1 => absurd he1 (by simp),
        fun x hx => ?_⟩
      · have hv2 : (Except.ok [up] : Except PErr (List FPath)) =
            Except.ok v := hv
        injection hv2 with hv2
        subst hv2
        refine ⟨rfl, ?_, ?_, ?_⟩
        · show successEvents
              (emit EventKind.endSuccessfulImport (some up) s2).events =
            successEvents t1.events + 1
          simp only [emit]
          rw [successEvents_append, hdh.1, hds.1]
          simp [successEvents_cons, successEvents_nil]
        · show fileErrorEvents
              (emit EventKind.endSuccessfulImport (some up) s2).events =
            fileErrorEvents t1.events
          simp only [emit]
          rw [fileErrorEvents_append, hdh.2.1 u rfl, hds.2.1 img rfl]
          simp [fileErrorEvents_cons, fileErrorEvents_nil]
        · show (emit EventKind.endSuccessfulImport
              (some up) s2).events.getLast? =
            some ⟨EventKind.endSuccessfulImport, some up⟩
          simp [emit, List.getLast?_concat]
      · show x ∈ (emit EventKind.endSuccessfulImport
            (some up) s2).fs.links
        simp only [emit]
        rw [hdh.2.2.1]
        exact hds.2.2.1 x hx

/-- Behavioural envelope of the shared pipeline tail: on a normal return
it returns the singleton upload path, delivers exactly one terminal
success event — as the very last event — and no generic file-error event;
on an exception it delivers no success event and the exception is never
the file-not-found kind; existing links survive. -/
theorem afterUnpack_spec (env : Env) (g : AFormat) (op up : FPath) (t : St) :
    (∀ v, (afterUnpack env g op up t).1 = Except.ok v →
      v = [up] ∧
      successEvents (afterUnpack env g op up t).2.events =
        successEvents t.events + 1 ∧
      fileErrorEvents (afterUnpack env g op up t).2.events =
        fileErrorEvents t.events ∧
      (afterUnpack env g op up t).2.events.getLast? =
        some ⟨EventKind.endSuccessfulImport, some up⟩) ∧
    (∀ e, (afterUnpack env g op up t).1 = Except.error e →
      successEvents (afterUnpack env g op up t).2.events =
        successEvents t.events ∧
      e ≠ PErr.filepathNotFound) ∧
    (∀ x, x ∈ t.fs.links → x ∈ (afterUnpack env g op up t).2.fs.links) := by
  simp only [afterUnpack, emit]
  by_cases hi : env.checkIntegrity op g = []
  · rw [if_neg (by simp [hi])]
    cases hsp : g.isSpatial with
    | false =>
      simp [successEvents_append, successEvents_cons, successEvents_nil,
        fileErrorEvents_append, fileErrorEvents_cons, fileErrorEvents_nil]
    | true =>
      rw [if_pos rfl]
      have hts := deployTail_spec env g up
        { t with
            events := t.events ++
              [⟨EventKind.startIntegrityCheck, some op⟩] ++
              [⟨EventKind.endIntegrityCheck, some op⟩],
            original := some ⟨op, g⟩ }
      have hTe : successEvents
          (t.events ++ [⟨EventKind.startIntegrityCheck, some op⟩] ++
            [⟨EventKind.endIntegrityCheck, some op⟩]) =
          successEvents t.events := by
        simp [successEvents_append, successEvents_cons, successEvents_nil]
      have hTf : fileErrorEvents
          (t.events ++ [⟨EventKind.startIntegrityCheck, some op⟩] ++
            [⟨EventKind.endIntegrityCheck, some op⟩]) =
          fileErrorEvents t.events := by
        simp [fileErrorEvents_append, fileErrorEvents_cons,
          fileErrorEvents_nil]
      simp only [hTe, hTf] at hts
      exact hts
  · rw [if_pos hi]
    simp [successEvents_append, successEvents_cons, successEvents_nil,
      fileErrorEvents_append, fileErrorEvents_cons, fileErrorEvents_nil]

theorem successEvents_registerFiles (l : List FPath) :
    successEvents (l.map fun ch =>
      (⟨EventKind.registerFile, some ch⟩ : Event)) = 0 := by
  induction l with
  | nil => rfl
  | cons c rest ih =>
    simp [List.map_cons, successEvents_cons, ih]

theorem fileErrorEvents_registerFiles (l : List FPath) :
    fileErrorEvents (l.map fun ch =>
      (⟨EventKind.registerFile, some ch⟩ : Event)) = 0 := by
  induction l with
  | nil => rfl
  | cons c rest ih =>
    simp [List.map_cons, fileErrorEvents_cons, ih]

/-- The envelope of afterUnpack stated relative to an outer initial state
t0 from which the current state t differs only by events that are not
terminal and by grown links. -/
theorem afterUnpack_compose (env : Env) (g : AFormat) (op up : FPath)
    (t0 t : St)
    (hse : successEvents t.events = successEvents t0.events)
    (hfe : fileErrorEvents t.events = fileErrorEvents t0.events)
    (hl : ∀ x, x ∈ t0.fs.links → x ∈ t.fs.links) :
    (∀ v, (afterUnpack env g op up t).1 = Except.ok v →
      (v = [] ∧
        successEvents (afterUnpack env g op up t).2.events =
          successEvents t0.events ∧
        fileErrorEvents (afterUnpack env g op up t).2.events =
          fileErrorEvents t0.events) ∨
      (∃ p, v = [p] ∧
        successEvents (afterUnpack env g op up t).2.events =
          successEvents t0.events + 1 ∧
        fileErrorEvents (afterUnpack env g op up t).2.events =
          fileErrorEvents t0.events ∧
        (afterUnpack env g op up t).2.events.getLast? =
          some ⟨EventKind.endSuccessfulImport, some p⟩)) ∧
    (∀ e, (afterUnpack env g op up t).1 = Except.error e →
      successEvents (afterUnpack env g op up t).2.events =
        successEvents t0.events ∧
      e ≠ PErr.filepathNotFound) ∧
    (∀ x, x ∈ t0.fs.links →
      x ∈ (afterUnpack env g op up t).2.fs.links) := by
  have h := afterUnpack_spec env g op up t
  refine ⟨fun v hv => ?_, fun e he => ?_, fun x hx => h.2.2 x (hl x hx)⟩
  · obtain ⟨h1, h2, h3, h4⟩ := h.1 v hv
    exact Or.inr ⟨up, h1, by rw [h2, hse], by rw [h3, hfe], h4⟩
  · obtain ⟨h1, h2⟩ := h.2.1 e he
    exact ⟨by rw [h1, hse], h2⟩

/-- The envelope of the collection branch tail (import_collection followed
by the END_UNPACKING notification and the early return, lines 281-288),
stated relative to an outer initial state t0. -/
theorem collectionTail_compose (env : Env) (op upSub : FPath) (pc : Bool)
    (t0 t : St)
    (hse : successEvents t.events = successEvents t0.events)
    (hfe : fileErrorEvents t.events = fileErrorEvents t0.events)
    (hl : ∀ x, x ∈ t0.fs.links → x ∈ t.fs.links) :
    (∀ v, (step (importCollection env op pc t) fun coll s =>
        (Except.ok coll,
          emit EventKind.endUnpacking (some upSub) s)).1 = Except.ok v →
      (v = [] ∧
        successEvents (step (importCollection env op pc t) fun coll s =>
          (Except.ok coll,
            emit EventKind.endUnpacking (some upSub) s)).2.events =
          successEvents t0.events ∧
        fileErrorEvents (step (importCollection env op pc t) fun coll s =>
          (Except.ok coll,
            emit EventKind.endUnpacking (some upSub) s)).2.events =
          fileErrorEvents t0.events) ∨
      (∃ p, v = [p] ∧
        successEvents (step (importCollection env op pc t) fun coll s =>
          (Except.ok coll,
            emit EventKind.endUnpacking (some upSub) s)).2.events =
          successEvents t0.events + 1 ∧
        fileErrorEvents (step (importCollection env op pc t) fun coll s =>
          (Except.ok coll,
            emit EventKind.endUnpacking (some upSub) s)).2.events =
          fileErrorEvents t0.events ∧
        (step (importCollection env op pc t) fun coll s =>
          (Except.ok coll,
            emit EventKind.endUnpacking
              (some upSub) s)).2.events.getLast? =
          some ⟨EventKind.endSuccessfulImport, some p⟩)) ∧
    (∀ e, (step (importCollection env op pc t) fun coll s =>
        (Except.ok coll,
          emit EventKind.endUnpacking (some upSub) s)).1 = Except.error e →
      successEvents (step (importCollection env op pc t) fun coll s =>
        (Except.ok coll,
          emit EventKind.endUnpacking (some upSub) s)).2.events =
        successEvents t0.events ∧
      e ≠ PErr.filepathNotFound) ∧
    (∀ x, x ∈ t0.fs.links →
      x ∈ (step (importCollection env op pc t) fun coll s =>
        (Except.ok coll,
          emit EventKind.endUnpacking (some upSub) s)).2.fs.links) := by
  have hic := importCollection_spec env op pc t
  rcases hi : importCollection env op pc t with ⟨r, s1⟩
  rw [hi] at hic
  cases r with
  | ok coll =>
    simp only [step, emit]
    refine ⟨fun v hv => ?_, fun e he => absurd he (by simp),
      fun x hx => hic.2.1 ▸ hl x hx⟩
    have hv2 : (Except.ok coll : Except PErr (List FPath)) =
        Except.ok v := hv
    injection hv2 with hv2
    subst hv2
    refine Or.inl ⟨hic.2.2.1 coll rfl, ?_, ?_⟩
    · rw [successEvents_append, hic.1, successEvents_append,
        successEvents_registerFiles, hse]
      simp [successEvents_cons, successEvents_nil]
    · rw [fileErrorEvents_append, hic.1, fileErrorEvents_append,
        fileErrorEvents_registerFiles, hfe]
      simp [fileErrorEvents_cons, fileErrorEvents_nil]
  | error e =>
    simp only [step]
    refine ⟨fun v hv => absurd hv (by simp), fun e1 he1 => ?_,
      fun x hx => hic.2.1 ▸ hl x hx⟩
    have he2 : (Except.error e : Except PErr (List FPath)) =
        Except.error e1 := he1
    injection he2 with he2
    subst he2
    refine ⟨?_, ?_⟩
    · rw [hic.1, successEvents_append, successEvents_registerFiles, hse]
      simp
    · rw [hic.2.2.2 e rfl]
      simp

/-- The envelope of the detection-onward phase, stated relative to an
outer initial state t0: a normal return is either the empty collection
result with no terminal event delivered, or a singleton path with exactly
one terminal success event delivered last and no file-error event; an
exception is never the file-not-found kind and delivers no success event;
existing links survive. -/
theorem detectPhase_compose (env : Env) (pc : Bool) (ud up : FPath)
    (t0 t : St)
    (hse : successEvents t.events = successEvents t0.events)
    (hfe : fileErrorEvents t.events = fileErrorEvents t0.events)
    (hl : ∀ x, x ∈ t0.fs.links → x ∈ t.fs.links) :
    (∀ v, (detectPhase env pc ud up t).1 = Except.ok v →
      (v = [] ∧
        successEvents (detectPhase env pc ud up t).2.events =
          successEvents t0.events ∧
        fileErrorEvents (detectPhase env pc ud up t).2.events =
          fileErrorEvents t0.events) ∨
      (∃ p, v = [p] ∧
        successEvents (detectPhase env pc ud up t).2.events =
          successEvents t0.events + 1 ∧
        fileErrorEvents (detectPhase env pc ud up t).2.events =
          fileErrorEvents t0.events ∧
        (detectPhase env pc ud up t).2.events.getLast? =
          some ⟨EventKind.endSuccessfulImport, some p⟩)) ∧
    (∀ e, (detectPhase env pc ud up t).1 = Except.error e →
      successEvents (detectPhase env pc ud up t).2.events =
        successEvents t0.events ∧
      e ≠ PErr.filepathNotFound) ∧
    (∀ x, x ∈ t0.fs.links →
      x ∈ (detectPhase env pc ud up t).2.fs.links) := by
  simp only [detectPhase, emit]
  rcases hm : env.matchImportable up with _ | f
  · simp only [Option.isNone_none, eq_self_iff_true, if_true]
    rcases ha : env.archiveFrom up with _ | a
    · simp only [Option.map_none']
      refine ⟨fun v hv => absurd hv (by simp), fun e he => ?_,
        fun x hx => hl x hx⟩
      have he2 : (Except.error PErr.noMatchingFormat :
          Except PErr (List FPath)) = Except.error e := he
      injection he2 with he2
      subst he2
      exact ⟨by simp [emit, successEvents_append, successEvents_cons,
        successEvents_nil, hse], by simp⟩
    · simp only [Option.map_some']
      cases hmk : env.mkdirFails (ud ++ [⟨PROCESSED_DIR, none⟩]) with
      | true =>
        simp only [mkdirOp, hmk, eq_self_iff_true, if_true, step, emit]
        refine ⟨fun v hv => absurd hv (by simp), fun e he => ?_,
          fun x hx => hl x hx⟩
        have he2 : (Except.error PErr.fileError :
            Except PErr (List FPath)) = Except.error e := he
        injection he2 with he2
        subst he2
        exact ⟨by simp [emit, successEvents_append, successEvents_cons,
          successEvents_nil, hse], by simp⟩
      | false =>
        simp only [mkdirOp, hmk, Bool.false_eq_true, if_false, step, emit]
        rcases hex : a.extractResult with _ | c
        · refine ⟨fun v hv => absurd hv (by simp), fun e he => ?_,
            fun x hx => hl x hx⟩
          have he2 : (Except.error PErr.fileError :
              Except PErr (List FPath)) = Except.error e := he
          injection he2 with he2
          subst he2
          exact ⟨by simp [emit, successEvents_append, successEvents_cons,
            successEvents_nil, hse], by simp⟩
        · rcases hmB : env.matchImportable
              (ud ++ [⟨PROCESSED_DIR, none⟩] ++
                [⟨ORIGINAL_STEM, some a.format.identifier⟩]) with _ | fB
          · cases hsl : env.symlinkFails
                (ud ++ [⟨PROCESSED_DIR, none⟩] ++
                  [⟨EXTRACTED_DIR, none⟩]) with
            | true =>
              simp only [hmB, symlinkOp, hsl, eq_self_iff_true, if_true, step,
                emit]
              refine ⟨fun v hv => absurd hv (by simp), fun e he => ?_,
                fun x hx => hl x hx⟩
              have he2 : (Except.error PErr.fileError :
                  Except PErr (List FPath)) = Except.error e := he
              injection he2 with he2
              subst he2
              exact ⟨by simp [emit, successEvents_append, successEvents_cons,
                successEvents_nil, hse], by simp⟩
            | false =>
              simp only [hmB, symlinkOp, hsl, Bool.false_eq_true, if_false, step,
                emit]
              refine collectionTail_compose env _ up pc t0 _ ?_ ?_ ?_
              · simp [successEvents_append, successEvents_cons,
                  successEvents_nil, hse]
              · simp [fileErrorEvents_append, fileErrorEvents_cons,
                  fileErrorEvents_nil, hfe]
              · intro x hx
                exact List.mem_append_left _ (hl x hx)
          · rcases hlk : List.lookup
                (ud ++ [⟨PROCESSED_DIR, none⟩] ++
                  [⟨ORIGINAL_STEM, some a.format.identifier⟩])
                (t.fs.files ++
                  [(ud ++ [⟨PROCESSED_DIR, none⟩] ++
                    [⟨ORIGINAL_STEM, some a.format.identifier⟩], c)])
              with _ | cc
            · simp only [hmB, moveOp, hlk, step, emit]
              refine ⟨fun v hv => absurd hv (by simp), fun e he => ?_,
                fun x hx => hl x hx⟩
              have he2 : (Except.error PErr.fileError :
                  Except PErr (List FPath)) = Except.error e := he
              injection he2 with he2
              subst he2
              exact ⟨by simp [emit, successEvents_append, successEvents_cons,
                successEvents_nil, hse], by simp⟩
            · cases hmf : env.moveFails
                  (ud ++ [⟨PROCESSED_DIR, none⟩] ++
                    [⟨ORIGINAL_STEM, some a.format.identifier⟩]) with
              | true =>
                simp only [hmB, moveOp, hlk, hmf, eq_self_iff_true, if_true, step,
                  emit]
                refine ⟨fun v hv => absurd hv (by simp), fun e he => ?_,
                  fun x hx => hl x hx⟩
                have he2 : (Except.error PErr.fileError :
                    Except PErr (List FPath)) = Except.error e := he
                injection he2 with he2
                subst he2
                exact ⟨by simp [emit, successEvents_append, successEvents_cons,
                  successEvents_nil, hse], by simp⟩
              | false =>
                simp only [hmB, moveOp, hlk, hmf, Bool.false_eq_true, if_false,
                  step, emit]
                refine afterUnpack_compose env fB _ _ t0 _ ?_ ?_ ?_
                · simp [successEvents_append, successEvents_cons,
                    successEvents_nil, hse]
                · simp [fileErrorEvents_append, fileErrorEvents_cons,
                    fileErrorEvents_nil, hfe]
                · intro x hx
                  exact hl x hx
  · cases hmk : env.mkdirFails (ud ++ [⟨PROCESSED_DIR, none⟩]) with
    | true =>
      simp only [mkdirOp, hmk, eq_self_iff_true, if_true, step, emit]
      refine ⟨fun v hv => absurd hv (by simp), fun e he => ?_,
        fun x hx => hl x hx⟩
      have he2 : (Except.error PErr.fileError :
          Except PErr (List FPath)) = Except.error e := he
      injection he2 with he2
      subst he2
      exact ⟨by simp [emit, successEvents_append, successEvents_cons,
        successEvents_nil, hse], by simp⟩
    | false =>
      simp only [mkdirOp, hmk, Bool.false_eq_true, if_false, step, emit]
      cases hsl : env.symlinkFails
          (ud ++ [⟨PROCESSED_DIR, none⟩] ++
            [⟨ORIGINAL_STEM, some f.identifier⟩]) with
      | true =>
        simp only [symlinkOp, hsl, eq_self_iff_true, if_true, step, emit]
        refine ⟨fun v hv => absurd hv (by simp), fun e he => ?_,
          fun x hx => hl x hx⟩
        have he2 : (Except.error PErr.fileError :
            Except PErr (List FPath)) = Except.error e := he
        injection he2 with he2
        subst he2
        exact ⟨by simp [emit, successEvents_append, successEvents_cons,
          successEvents_nil, hse], by simp⟩
      | false =>
        simp only [symlinkOp, hsl, Bool.false_eq_true, if_false, step, emit]
        rw [if_pos (hasOriginalRole_concat _ _)]
        refine afterUnpack_compose env f _ up t0 _ ?_ ?_ ?_
        · simp [successEvents_append, successEvents_cons,
            successEvents_nil, hse]
        · simp [fileErrorEvents_append, fileErrorEvents_cons,
            fileErrorEvents_nil, hfe]
        · intro x hx
          exact List.mem_append_left _ (hl x hx)

/-- The precondition of the sanctioned-source validation (lines 186-188):
the pending file is marked as extracted from a parent archive, or its
parent directory is the writing or the pending area; and it exists. -/
def validPending (env : Env) (pf : FPath) (fs : Fs) : Prop :=
  (env.isExtracted pf = true ∨ pf.dropLast = env.writingPath ∨
    pf.dropLast = env.pendingPath) ∧ fsExists fs pf = true

theorem validPending_iff (env : Env) (pf : FPath) (fs : Fs) :
    validPending env pf fs ↔
      ¬ ((env.isExtracted pf = false ∧ pf.dropLast ≠ env.writingPath ∧
          pf.dropLast ≠ env.pendingPath) ∨ fsExists fs pf = false) := by
  unfold validPending
  have h1 := Bool.eq_false_or_eq_true (env.isExtracted pf)
  have h2 := Bool.eq_false_or_eq_true (fsExists fs pf)
  constructor
  · rintro ⟨hs, he⟩ h
    rcases h with ⟨ha, hb, hc⟩ | hd
    · rcases hs with h | h | h
      · rw [h] at ha
        exact absurd ha (by simp)
      · exact hb h
      · exact hc h
    · rw [he] at hd
      exact absurd hd (by simp)
  · intro hn
    refine ⟨?_, ?_⟩
    · by_cases hw : pf.dropLast = env.writingPath
      · exact Or.inr (Or.inl hw)
      · by_cases hp : pf.dropLast = env.pendingPath
        · exact Or.inr (Or.inr hp)
        · rcases h1 with h | h
          · exact Or.inl h
          · exact absurd (Or.inl ⟨h, hw, hp⟩) hn
    · rcases h2 with h | h
      · exact h
      · exact absurd (Or.inr h) hn

/-- Behavioural envelope of the body of run (the try block): a normal
return is either the empty collection result with no terminal event, or a
singleton upload path with exactly one success event, delivered last, and
no file-error event; on an exception no success event is delivered, and
the exception is the file-not-found kind only when the sanctioned-source
validation failed. -/
theorem runBody_spec (env : Env) (pf : FPath) (pn : Option FName)
    (pc : Bool) (s0 : St) :
    (∀ v, (runBody env pf pn pc s0).1 = Except.ok v →
      (v = [] ∧
        successEvents (runBody env pf pn pc s0).2.events =
          successEvents s0.events ∧
        fileErrorEvents (runBody env pf pn pc s0).2.events =
          fileErrorEvents s0.events) ∨
      (∃ p, v = [p] ∧
        successEvents (runBody env pf pn pc s0).2.events =
          successEvents s0.events + 1 ∧
        fileErrorEvents (runBody env pf pn pc s0).2.events =
          fileErrorEvents s0.events ∧
        (runBody env pf pn pc s0).2.events.getLast? =
          some ⟨EventKind.endSuccessfulImport, some p⟩)) ∧
    (∀ e, (runBody env pf pn pc s0).1 = Except.error e →
      successEvents (runBody env pf pn pc s0).2.events =
        successEvents s0.events ∧
      (validPending env pf s0.fs → e ≠ PErr.filepathNotFound)) := by
  simp only [runBody, emit]
  by_cases hvld : (env.isExtracted pf = false ∧
      pf.dropLast ≠ env.writingPath ∧ pf.dropLast ≠ env.pendingPath) ∨
      fsExists s0.fs pf = false
  · rw [if_pos hvld]
    refine ⟨fun v hv => absurd hv (by simp), fun e he => ?_⟩
    have he2 : (Except.error PErr.filepathNotFound :
        Except PErr (List FPath)) = Except.error e := he
    injection he2 with he2
    subst he2
    refine ⟨by simp [successEvents_append, successEvents_cons,
      successEvents_nil], fun hvp _ => ?_⟩
    exact absurd hvld ((validPending_iff env pf s0.fs).mp hvp)
  · rw [if_neg hvld]
    cases hmk : env.mkdirFails
        (env.rootPath ++ [⟨UPLOAD_DIR_TAG ++ env.uniqueName, none⟩]) with
    | true =>
      simp only [mkdirOp, hmk, eq_self_iff_true, if_true, step, emit]
      refine ⟨fun v hv => absurd hv (by simp), fun e he => ?_⟩
      have he2 : (Except.error PErr.fileError :
          Except PErr (List FPath)) = Except.error e := he
      injection he2 with he2
      subst he2
      exact ⟨by simp [successEvents_append, successEvents_cons,
        successEvents_nil], fun _ => by simp⟩
    | false =>
      simp only [mkdirOp, hmk, Bool.false_eq_true, if_false, step, emit]
      rcases hlk : List.lookup pf s0.fs.files with _ | cpf
      · simp only [moveOp, hlk, step, emit]
        refine ⟨fun v hv => absurd hv (by simp), fun e he => ?_⟩
        have he2 : (Except.error PErr.fileError :
            Except PErr (List FPath)) = Except.error e := he
        injection he2 with he2
        subst he2
        exact ⟨by simp [successEvents_append, successEvents_cons,
          successEvents_nil], fun _ => by simp⟩
      · cases hmf : env.moveFails pf with
        | true =>
          simp only [moveOp, hlk, hmf, step, emit]
          refine ⟨fun v hv => absurd hv (by simp), fun e he => ?_⟩
          have he2 : (Except.error PErr.fileError :
              Except PErr (List FPath)) = Except.error e := he
          injection he2 with he2
          subst he2
          exact ⟨by simp [successEvents_append, successEvents_cons,
            successEvents_nil], fun _ => by simp⟩
        | false =>
          cases hpc : pc with
          | true =>
            simp only [moveOp, hlk, hmf, eq_self_iff_true, if_true,
              Bool.true_eq_false, false_and, if_false, step, emit]
            have hdc := detectPhase_compose env true
              (env.rootPath ++ [⟨UPLOAD_DIR_TAG ++ env.uniqueName, none⟩])
              (env.rootPath ++ [⟨UPLOAD_DIR_TAG ++ env.uniqueName, none⟩] ++
                [match pn with
                  | some n => n
                  | none => pf.getLastD ⟨"", none⟩])
              s0
              { s0 with
                  fs := { s0.fs with
                    files := s0.fs.files ++
                      [(env.rootPath ++
                          [⟨UPLOAD_DIR_TAG ++ env.uniqueName, none⟩] ++
                        [match pn with
                          | some n => n
                          | none => pf.getLastD ⟨"", none⟩], cpf)],
                    dirs := s0.fs.dirs ++
                      [env.rootPath ++
                        [⟨UPLOAD_DIR_TAG ++ env.uniqueName, none⟩]] },
                  events := s0.events ++
                    [⟨EventKind.startDataExtraction, some pf⟩] ++
                    [⟨EventKind.movedPendingFile, some pf⟩] ++
                    [⟨EventKind.endDataExtraction,
                      some (env.rootPath ++
                        [⟨UPLOAD_DIR_TAG ++ env.uniqueName, none⟩] ++
                        [match pn with
                          | some n => n
                          | none => pf.getLastD ⟨"", none⟩])⟩],
                  uploadDir := some (env.rootPath ++
                    [⟨UPLOAD_DIR_TAG ++ env.uniqueName, none⟩]),
                  uploadPath := some (env.rootPath ++
                    [⟨UPLOAD_DIR_TAG ++ env.uniqueName, none⟩] ++
                    [match pn with
                      | some n => n
                      | none => pf.getLastD ⟨"", none⟩]) }
              (by simp [successEvents_append, successEvents_cons,
                successEvents_nil])
              (by simp [fileErrorEvents_append, fileErrorEvents_cons,
                fileErrorEvents_nil])
              (fun x hx => hx)
            exact ⟨hdc.1, fun e he => ⟨(hdc.2.1 e he).1,
              fun _ => (hdc.2.1 e he).2⟩⟩
          | false =>
            cases hext : env.isExtracted pf with
            | false =>
              simp only [moveOp, hlk, hmf, hext, eq_self_iff_true, if_true,
                Bool.false_eq_true, and_false, if_false, step, emit,
                Bool.true_eq_false]
              have hdc := detectPhase_compose env false
                (env.rootPath ++ [⟨UPLOAD_DIR_TAG ++ env.uniqueName, none⟩])
                (env.rootPath ++
                  [⟨UPLOAD_DIR_TAG ++ env.uniqueName, none⟩] ++
                  [match pn with
                    | some n => n
                    | none => pf.getLastD ⟨"", none⟩])
                s0
                { s0 with
                    fs := { s0.fs with
                      files := (s0.fs.files.filter fun kv =>
                          decide (kv.1 ≠ pf)) ++
                        [(env.rootPath ++
                            [⟨UPLOAD_DIR_TAG ++ env.uniqueName, none⟩] ++
                          [match pn with
                            | some n => n
                            | none => pf.getLastD ⟨"", none⟩], cpf)],
                      dirs := s0.fs.dirs ++
                        [env.rootPath ++
                          [⟨UPLOAD_DIR_TAG ++ env.uniqueName, none⟩]] },
                    events := s0.events ++
                      [⟨EventKind.startDataExtraction, some pf⟩] ++
                      [⟨EventKind.movedPendingFile, some pf⟩] ++
                      [⟨EventKind.endDataExtraction,
                        some (env.rootPath ++
                          [⟨UPLOAD_DIR_TAG ++ env.uniqueName, none⟩] ++
                          [match pn with
                            | some n => n
                            | none => pf.getLastD ⟨"", none⟩])⟩],
                    uploadDir := some (env.rootPath ++
                      [⟨UPLOAD_DIR_TAG ++ env.uniqueName, none⟩]),
                    uploadPath := some (env.rootPath ++
                      [⟨UPLOAD_DIR_TAG ++ env.uniqueName, none⟩] ++
                      [match pn with
                        | some n => n
                        | none => pf.getLastD ⟨"", none⟩]) }
                (by simp [successEvents_append, successEvents_cons,
                  successEvents_nil])
                (by simp [fileErrorEvents_append, fileErrorEvents_cons,
                  fileErrorEvents_nil])
                (fun x hx => hx)
              exact ⟨hdc.1, fun e he => ⟨(hdc.2.1 e he).1,
                fun _ => (hdc.2.1 e he).2⟩⟩
            | true =>
              cases hslf : env.symlinkFails pf with
              | true =>
                simp only [moveOp, hlk, hmf, hext, symlinkOp, hslf,
                  eq_self_iff_true, if_true, and_self, Bool.false_eq_true,
                  if_false, step, emit, Bool.true_eq_false]
                refine ⟨fun v hv => absurd hv (by simp), fun e he => ?_⟩
                have he2 : (Except.error PErr.fileError :
                    Except PErr (List FPath)) = Except.error e := he
                injection he2 with he2
                subst he2
                exact ⟨by simp [successEvents_append, successEvents_cons,
                  successEvents_nil], fun _ => by simp⟩
              | false =>
                simp only [moveOp, hlk, hmf, hext, symlinkOp, hslf,
                  eq_self_iff_true, if_true, and_self, Bool.false_eq_true,
                  if_false, step, emit, Bool.true_eq_false]
                have hdc := detectPhase_compose env false
                  (env.rootPath ++
                    [⟨UPLOAD_DIR_TAG ++ env.uniqueName, none⟩])
                  (env.rootPath ++
                    [⟨UPLOAD_DIR_TAG ++ env.uniqueName, none⟩] ++
                    [match pn with
                      | some n => n
                      | none => pf.getLastD ⟨"", none⟩])
                  s0
                  { s0 with
                      fs := { s0.fs with
                        files := (s0.fs.files.filter fun kv =>
                            decide (kv.1 ≠ pf)) ++
                          [(env.rootPath ++
                              [⟨UPLOAD_DIR_TAG ++ env.uniqueName, none⟩] ++
                            [match pn with
                              | some n => n
                              | none => pf.getLastD ⟨"", none⟩], cpf)],
                        links := s0.fs.links ++
                          [(pf, env.rootPath ++
                            [⟨UPLOAD_DIR_TAG ++ env.uniqueName, none⟩] ++
                            [match pn with
                              | some n => n
                              | none => pf.getLastD ⟨"", none⟩])],
                        dirs := s0.fs.dirs ++
                          [env.rootPath ++
                            [⟨UPLOAD_DIR_TAG ++ env.uniqueName, none⟩]] },
                      events := s0.events ++
                        [⟨EventKind.startDataExtraction, some pf⟩] ++
                        [⟨EventKind.movedPendingFile, some pf⟩] ++
                        [⟨EventKind.endDataExtraction,
                          some (env.rootPath ++
                            [⟨UPLOAD_DIR_TAG ++ env.uniqueName, none⟩] ++
                            [match pn with
                              | some n => n
                              | none => pf.getLastD ⟨"", none⟩])⟩],
                      uploadDir := some (env.rootPath ++
                        [⟨UPLOAD_DIR_TAG ++ env.uniqueName, none⟩]),
                      uploadPath := some (env.rootPath ++
                        [⟨UPLOAD_DIR_TAG ++ env.uniqueName, none⟩] ++
                        [match pn with
                          | some n => n
                          | none => pf.getLastD ⟨"", none⟩]) }
                  (by simp [successEvents_append, successEvents_cons,
                    successEvents_nil])
                  (by simp [fileErrorEvents_append, fileErrorEvents_cons,
                    fileErrorEvents_nil])
                  (fun x hx => List.mem_append_left _ hx)
                exact ⟨hdc.1, fun e he => ⟨(hdc.2.1 e he).1,
                  fun _ => (hdc.2.1 e he).2⟩⟩

/-- C1, amended.  For a run started with no events delivered yet: a run
that raises delivers no terminal success event, delivers at least one
generic file-error event, and its final delivered event is a generic
file-error event (the one notified by the top-level handler before
re-raising; filesystem-primitive failures notify an additional one).  A
run that returns normally through the non-collection paths returns a
singleton upload path and delivers exactly one terminal event — the
success event, as the very last event.  But a run that returns through
the archive-collection branch (which returns the import_collection result
directly, line 288) returns the empty list having delivered zero terminal
events: the original claim of exactly one terminal event on every run
fails on that branch. -/
theorem C1_run_terminal_events (env : Env) (pf : FPath) (pn : Option FName)
    (pc : Bool) (s0 : St) (h0 : s0.events = []) :
    (∀ v, (runImport env pf pn pc s0).1 = Except.ok v →
      (v = [] ∧
        terminalEvents (runImport env pf pn pc s0).2.events = 0) ∨
      (∃ p, v = [p] ∧
        terminalEvents (runImport env pf pn pc s0).2.events = 1 ∧
        (runImport env pf pn pc s0).2.events.getLast? =
          some ⟨EventKind.endSuccessfulImport, some p⟩)) ∧
    (∀ e, (runImport env pf pn pc s0).1 = Except.error e →
      successEvents (runImport env pf pn pc s0).2.events = 0 ∧
      1 ≤ fileErrorEvents (runImport env pf pn pc s0).2.events ∧
      ∃ subj, (runImport env pf pn pc s0).2.events.getLast? =
        some ⟨EventKind.fileError, subj⟩) := by
  have hrb := runBody_spec env pf pn pc s0
  rcases hr : runBody env pf pn pc s0 with ⟨r, s1⟩
  rw [hr] at hrb
  cases r with
  | ok v0 =>
    simp only [runImport, hr]
    refine ⟨fun v hv => ?_, fun e he => absurd he (by simp)⟩
    have hv2 : (Except.ok v0 : Except PErr (List FPath)) = Except.ok v := hv
    injection hv2 with hv2
    subst hv2
    rcases hrb.1 v0 rfl with ⟨h1, h2, h3⟩ | ⟨p, hp, h2, h3, h4⟩
    · left
      have h2s : successEvents s1.events = successEvents s0.events := h2
      have h3s : fileErrorEvents s1.events = fileErrorEvents s0.events := h3
      refine ⟨h1, ?_⟩
      unfold terminalEvents
      rw [h2s, h3s, h0]
      rfl
    · right
      have h2s : successEvents s1.events = successEvents s0.events + 1 := h2
      have h3s : fileErrorEvents s1.events = fileErrorEvents s0.events := h3
      have h4s : s1.events.getLast? =
          some ⟨EventKind.endSuccessfulImport, some p⟩ := h4
      refine ⟨p, hp, ?_, h4s⟩
      unfold terminalEvents
      rw [h2s, h3s, h0]
      rfl
  | error e =>
    simp only [runImport, hr, emit]
    refine ⟨fun v hv => absurd hv (by simp), fun e1 he1 => ?_⟩
    have he2 : (Except.error e : Except PErr (List FPath)) =
        Except.error e1 := he1
    injection he2 with he2
    subst he2
    have h2s : successEvents s1.events = successEvents s0.events :=
      (hrb.2 e rfl).1
    refine ⟨?_, ?_, ⟨s1.uploadPath, ?_⟩⟩
    · rw [successEvents_append, h2s, h0]
      rfl
    · rw [fileErrorEvents_append]
      have : fileErrorEvents [(⟨EventKind.fileError, s1.uploadPath⟩ :
          Event)] = 1 := rfl
      omega
    · simp [List.getLast?_concat]

/-- The C1 counterexample environment: the upload is not a recognized
format but is a recognized archive whose extraction yields a collection
(re-detection matches nothing and there are no children), so run returns
through the collection branch. -/
def envC1 : Env :=
  { envBase with
    archiveFrom := fun _ => some ⟨⟨"zip", false, false, ""⟩, some 9⟩ }

/-- The initial state of the run-level witnesses: a pending file with
content 5 under the pending area, no events delivered yet. -/
def stRun : St where
  fs := ⟨[([⟨"f", none⟩], 5)], [], []⟩
  events := []

/-- C1, counterexample.  A run through the archive-collection branch
returns normally with zero terminal events delivered: neither a
successful-import event nor a generic file-error event — the claim of
exactly one terminal event per run, collection branch included, is
false. -/
theorem C1_run_terminal_events_counterexample :
    (runImport envC1 [⟨"f", none⟩] none false stRun).1 = Except.ok [] ∧
    terminalEvents
      (runImport envC1 [⟨"f", none⟩] none false stRun).2.events = 0 := by
  exact ⟨rfl, rfl⟩

/-- The C1 witness environment: the upload is a directly spatial format
needing no conversion, so the run succeeds through the plain-file path. -/
def envC1w : Env :=
  { envBase with matchImportable := fun _ => some ⟨"tif", true, false, ""⟩ }

/-- C1, witness for the amended theorem: a successful non-collection run
delivers exactly one terminal event. -/
theorem C1_run_terminal_events_witness :
    (runImport envC1w [⟨"f", none⟩] none false stRun).1 =
      Except.ok [[⟨"uploadu", none⟩, ⟨"f", none⟩]] ∧
    terminalEvents
      (runImport envC1w [⟨"f", none⟩] none false stRun).2.events = 1 := by
  have hres : (runImport envC1w [⟨"f", none⟩] none false stRun).1 =
      Except.ok [[⟨"uploadu", none⟩, ⟨"f", none⟩]] := rfl
  rcases (C1_run_terminal_events envC1w [⟨"f", none⟩] none false stRun
      rfl).1 _ hres with ⟨h1, h2⟩ | ⟨p, hp, h2, h3⟩
  · exact absurd h1 (by decide)
  · exact ⟨hres, h2⟩

/-- C5.  The pending file is validated before anything else: when it does
not exist or sits outside every sanctioned source area, run raises the
file-not-found problem having performed no filesystem mutation at all (the
final filesystem is the initial one: no upload directory created, no file
moved), the delivered events being exactly the start notification, the
file-not-found notification and the terminal file-error notification.
Conversely a pending file satisfying the precondition passes this
validation: the run never raises the file-not-found kind. -/
theorem C5_run_validation (env : Env) (pf : FPath) (pn : Option FName)
    (pc : Bool) (s0 : St) :
    (¬ validPending env pf s0.fs →
      (runImport env pf pn pc s0).1 =
        Except.error PErr.filepathNotFound ∧
      (runImport env pf pn pc s0).2.fs = s0.fs ∧
      (runImport env pf pn pc s0).2.events =
        s0.events ++ [⟨EventKind.startDataExtraction, some pf⟩,
          ⟨EventKind.fileNotFound, some pf⟩,
          ⟨EventKind.fileError, s0.uploadPath⟩]) ∧
    (validPending env pf s0.fs →
      (runImport env pf pn pc s0).1 ≠
        Except.error PErr.filepathNotFound) := by
  constructor
  · intro hnv
    have hcond : (env.isExtracted pf = false ∧
        pf.dropLast ≠ env.writingPath ∧
        pf.dropLast ≠ env.pendingPath) ∨ fsExists s0.fs pf = false := by
      by_cases hc : (env.isExtracted pf = false ∧
          pf.dropLast ≠ env.writingPath ∧
          pf.dropLast ≠ env.pendingPath) ∨ fsExists s0.fs pf = false
      · exact hc
      · exact absurd ((validPending_iff env pf s0.fs).mpr hc) hnv
    simp only [runImport, runBody, emit]
    rw [if_pos hcond]
    exact ⟨rfl, rfl, by simp⟩
  · intro hv hcontra
    have hrb := runBody_spec env pf pn pc s0
    rcases hr : runBody env pf pn pc s0 with ⟨r, s1⟩
    rw [hr] at hrb
    cases r with
    | ok v0 =>
      have : (runImport env pf pn pc s0).1 = Except.ok v0 := by
        simp [runImport, hr]
      rw [this] at hcontra
      exact absurd hcontra (by simp)
    | error e =>
      have : (runImport env pf pn pc s0).1 = Except.error e := by
        simp [runImport, hr]
      rw [this] at hcontra
      injection hcontra with hh
      exact ((hrb.2 e rfl).2 hv) hh

/-- C5, witness: a pending file that does not exist fails with the
file-not-found kind and mutates nothing. -/
theorem C5_run_validation_witness :
    ¬ validPending envBase [⟨"g", none⟩] stEmpty.fs ∧
    (runImport envBase [⟨"g", none⟩] none false stEmpty).1 =
      Except.error PErr.filepathNotFound ∧
    (runImport envBase [⟨"g", none⟩] none false stEmpty).2.fs =
      stEmpty.fs := by
  have hnv : ¬ validPending envBase [⟨"g", none⟩] stEmpty.fs := by
    intro h
    exact absurd h.2 (by decide)
  have h := (C5_run_validation envBase [⟨"g", none⟩] none false stEmpty).1
    hnv
  exact ⟨hnv, h.1, h.2.1⟩

/-- The upload directory allocated at lines 193-197. -/
def uploadDirOf (env : Env) : FPath :=
  env.rootPath ++ [⟨UPLOAD_DIR_TAG ++ env.uniqueName, none⟩]

/-- The name the upload file takes (lines 200-203). -/
def uploadNameOf (pf : FPath) (pn : Option FName) : FName :=
  match pn with
  | some n => n
  | none => pf.getLastD ⟨"", none⟩

/-- The upload path built at line 204. -/
def uploadPathOf (env : Env) (pf : FPath) (pn : Option FName) : FPath :=
  uploadDirOf env ++ [uploadNameOf pf pn]

/-- The processed directory created at lines 239-240. -/
def processedDirOf (env : Env) : FPath :=
  uploadDirOf env ++ [⟨PROCESSED_DIR, none⟩]

/-- The original representation path built at lines 243-246. -/
def originalPathOf (env : Env) (f : AFormat) : FPath :=
  uploadDirOf env ++ [⟨PROCESSED_DIR, none⟩] ++
    [⟨ORIGINAL_STEM, some f.identifier⟩]

/-- C8, amended.  The provenance symlink from the original extraction
location to the new upload location is recorded only when the relocation
is a move (prefer_copy false, line 209): for every extracted pending file
imported without prefer_copy whose relocation and symlink primitives
succeed, the link from the pending path to the upload path is present in
the final filesystem, whatever happens later in the run. -/
theorem C8_run_extracted_symlink (env : Env) (pf : FPath)
    (pn : Option FName) (s0 : St) (cpf : Nat)
    (hext : env.isExtracted pf = true)
    (hex : fsExists s0.fs pf = true)
    (hmk : env.mkdirFails (uploadDirOf env) = false)
    (hlk : s0.fs.files.lookup pf = some cpf)
    (hmf : env.moveFails pf = false)
    (hsf : env.symlinkFails pf = false) :
    (pf, uploadPathOf env pf pn) ∈
      (runImport env pf pn false s0).2.fs.links := by
  simp only [uploadPathOf, uploadDirOf, uploadNameOf] at hmk ⊢
  have hbody : (pf, env.rootPath ++
      [⟨UPLOAD_DIR_TAG ++ env.uniqueName, none⟩] ++
      [match pn with
        | some n => n
        | none => pf.getLastD ⟨"", none⟩]) ∈
      (runBody env pf pn false s0).2.fs.links := by
    simp only [runBody, emit]
    rw [if_neg (by simp [hext, hex])]
    simp only [mkdirOp, hmk, Bool.false_eq_true, if_false, step, emit]
    simp only [moveOp, hlk, hmf, Bool.false_eq_true, if_false, step, emit]
    simp only [hext, eq_self_iff_true, and_self, if_true, symlinkOp, hsf,
      Bool.false_eq_true, if_false, step, emit]
    refine (detectPhase_compose env false _ _ _ _ rfl rfl
      (fun x hx => hx)).2.2 _ ?_
    simp
  rcases hr : runBody env pf pn false s0 with ⟨r, s1⟩
  rw [hr] at hbody
  cases r with
  | ok v => simpa [runImport, hr] using hbody
  | error e => simpa [runImport, hr, emit] using hbody

/-- The C8 environment: every path is marked as extracted, the upload is a
directly spatial format, so the run succeeds. -/
def envC8 : Env :=
  { envC1w with isExtracted := fun _ => true }

/-- C8, counterexample.  An extracted pending file imported with
prefer_copy (a copy relocation): the run succeeds, yet no provenance link
from the extraction location to the upload location is recorded — the
claim with its regardless-of-move-or-copy rider is false, the source
guarding the symlink with not prefer_copy (line 209). -/
theorem C8_run_extracted_symlink_counterexample :
    envC8.isExtracted [⟨"f", none⟩] = true ∧
    (runImport envC8 [⟨"f", none⟩] none true stRun).1 =
      Except.ok [[⟨"uploadu", none⟩, ⟨"f", none⟩]] ∧
    ([⟨"f", none⟩], [⟨"uploadu", none⟩, ⟨"f", none⟩]) ∉
      (runImport envC8 [⟨"f", none⟩] none true stRun).2.fs.links := by
  refine ⟨rfl, rfl, ?_⟩
  decide

/-- C8, witness for the amended theorem: under a move relocation the
provenance link is recorded. -/
theorem C8_run_extracted_symlink_witness :
    ([⟨"f", none⟩], [⟨"uploadu", none⟩, ⟨"f", none⟩]) ∈
      (runImport envC8 [⟨"f", none⟩] none false stRun).2.fs.links := by
  exact C8_run_extracted_symlink envC8 [⟨"f", none⟩] none stRun 5
    rfl rfl rfl rfl rfl rfl

/-- Number of deployment-attempt events (spatial deploy start, histogram
deploy start, conversion start) in an event list. -/
def deployAttemptEvents (l : List Event) : Nat :=
  (l.filter fun ev => decide (ev.kind = EventKind.startSpatialDeploy ∨
    ev.kind = EventKind.startHistogramDeploy ∨
    ev.kind = EventKind.startConversion)).length

theorem deployAttemptEvents_append (l1 l2 : List Event) :
    deployAttemptEvents (l1 ++ l2) =
      deployAttemptEvents l1 + deployAttemptEvents l2 := by
  simp [deployAttemptEvents, List.filter_append]

theorem deployAttemptEvents_cons (k : EventKind) (subj : Option FPath)
    (l : List Event) :
    deployAttemptEvents (⟨k, subj⟩ :: l) =
      (if k = EventKind.startSpatialDeploy ∨
          k = EventKind.startHistogramDeploy ∨
          k = EventKind.startConversion then 1 else 0) +
        deployAttemptEvents l := by
  cases k <;> simp [deployAttemptEvents, Nat.add_comm]

/-- C10.  For a run whose pending file validates, whose relocation
succeeds, whose format detection finds a non-archive format directly (so
the archive probe is never consulted), whose integrity check reports no
errors, and whose format is not spatial, run raises NotImplementedError
right after the integrity check: listeners observe exactly the start and
progress events up to END_INTEGRITY_CHECK followed by the single terminal
generic file-error event, so no spatial-deploy, histogram-deploy or
conversion event is ever delivered — spatial and histogram deployment are
never attempted. -/
theorem C10_run_not_implemented (env : Env) (pf : FPath)
    (pn : Option FName) (s0 : St) (f : AFormat) (cpf : Nat) (nm : FName)
    (hnm : uploadNameOf pf pn = nm)
    (hext : env.isExtracted pf = false)
    (hpar : pf.dropLast = env.pendingPath)
    (hlk : s0.fs.files.lookup pf = some cpf)
    (hmk : env.mkdirFails (uploadDirOf env) = false)
    (hmk2 : env.mkdirFails (processedDirOf env) = false)
    (hmf : env.moveFails pf = false)
    (hfmt : env.matchImportable (uploadDirOf env ++ [nm]) = some f)
    (hsl : env.symlinkFails (originalPathOf env f) = false)
    (hint : env.checkIntegrity (originalPathOf env f) f = [])
    (hsp : f.isSpatial = false) :
    (runImport env pf pn false s0).1 =
      Except.error PErr.notImplemented ∧
    (runImport env pf pn false s0).2.events = s0.events ++
      [⟨EventKind.startDataExtraction, some pf⟩,
        ⟨EventKind.movedPendingFile, some pf⟩,
        ⟨EventKind.endDataExtraction, some (uploadDirOf env ++ [nm])⟩,
        ⟨EventKind.startFormatDetection, some (uploadDirOf env ++ [nm])⟩,
        ⟨EventKind.endFormatDetection, some (uploadDirOf env ++ [nm])⟩,
        ⟨EventKind.startIntegrityCheck, some (originalPathOf env f)⟩,
        ⟨EventKind.endIntegrityCheck, some (originalPathOf env f)⟩,
        ⟨EventKind.fileError, some (uploadDirOf env ++ [nm])⟩] ∧
    deployAttemptEvents (runImport env pf pn false s0).2.events =
      deployAttemptEvents s0.events ∧
    (runImport env pf pn false s0).2.events.getLast? =
      some ⟨EventKind.fileError, some (uploadDirOf env ++ [nm])⟩ := by
  simp only [uploadDirOf, originalPathOf, processedDirOf]
    at hmk hmk2 hfmt hsl hint ⊢
  simp only [uploadNameOf] at hnm
  have hvld : ¬ ((env.isExtracted pf = false ∧
      pf.dropLast ≠ env.writingPath ∧
      pf.dropLast ≠ env.pendingPath) ∨ fsExists s0.fs pf = false) := by
    rintro (⟨h1, h2, h3⟩ | h4)
    · exact h3 hpar
    · rw [fsExists, hlk] at h4
      simp at h4
  have hbody : runBody env pf pn false s0 =
      (Except.error PErr.notImplemented,
        { s0 with
            fs := { s0.fs with
              files := (s0.fs.files.filter fun kv =>
                  decide (kv.1 ≠ pf)) ++
                [(env.rootPath ++
                    [⟨UPLOAD_DIR_TAG ++ env.uniqueName, none⟩] ++ [nm],
                  cpf)],
              links := s0.fs.links ++
                [(env.rootPath ++
                    [⟨UPLOAD_DIR_TAG ++ env.uniqueName, none⟩] ++
                    [⟨PROCESSED_DIR, none⟩] ++
                    [⟨ORIGINAL_STEM, some f.identifier⟩],
                  env.rootPath ++
                    [⟨UPLOAD_DIR_TAG ++ env.uniqueName, none⟩] ++ [nm])],
              dirs := s0.fs.dirs ++
                [env.rootPath ++
                  [⟨UPLOAD_DIR_TAG ++ env.uniqueName, none⟩]] ++
                [env.rootPath ++
                  [⟨UPLOAD_DIR_TAG ++ env.uniqueName, none⟩] ++
                  [⟨PROCESSED_DIR, none⟩]] },
            events := s0.events ++
              [⟨EventKind.startDataExtraction, some pf⟩] ++
              [⟨EventKind.movedPendingFile, some pf⟩] ++
              [⟨EventKind.endDataExtraction,
                some (env.rootPath ++
                  [⟨UPLOAD_DIR_TAG ++ env.uniqueName, none⟩] ++ [nm])⟩] ++
              [⟨EventKind.startFormatDetection,
                some (env.rootPath ++
                  [⟨UPLOAD_DIR_TAG ++ env.uniqueName, none⟩] ++ [nm])⟩] ++
              [⟨EventKind.endFormatDetection,
                some (env.rootPath ++
                  [⟨UPLOAD_DIR_TAG ++ env.uniqueName, none⟩] ++ [nm])⟩] ++
              [⟨EventKind.startIntegrityCheck,
                some (env.rootPath ++
                  [⟨UPLOAD_DIR_TAG ++ env.uniqueName, none⟩] ++
                  [⟨PROCESSED_DIR, none⟩] ++
                  [⟨ORIGINAL_STEM, some f.identifier⟩])⟩] ++
              [⟨EventKind.endIntegrityCheck,
                some (env.rootPath ++
                  [⟨UPLOAD_DIR_TAG ++ env.uniqueName, none⟩] ++
                  [⟨PROCESSED_DIR, none⟩] ++
                  [⟨ORIGINAL_STEM, some f.identifier⟩])⟩],
            uploadDir := some (env.rootPath ++
              [⟨UPLOAD_DIR_TAG ++ env.uniqueName, none⟩]),
            uploadPath := some (env.rootPath ++
              [⟨UPLOAD_DIR_TAG ++ env.uniqueName, none⟩] ++ [nm]),
            processedDir := some (env.rootPath ++
              [⟨UPLOAD_DIR_TAG ++ env.uniqueName, none⟩] ++
              [⟨PROCESSED_DIR, none⟩]),
            originalPath := some (env.rootPath ++
              [⟨UPLOAD_DIR_TAG ++ env.uniqueName, none⟩] ++
              [⟨PROCESSED_DIR, none⟩] ++
              [⟨ORIGINAL_STEM, some f.identifier⟩]),
            original := some ⟨env.rootPath ++
              [⟨UPLOAD_DIR_TAG ++ env.uniqueName, none⟩] ++
              [⟨PROCESSED_DIR, none⟩] ++
              [⟨ORIGINAL_STEM, some f.identifier⟩], f⟩ }) := by
    simp only [runBody, emit, hnm]
    rw [if_neg hvld]
    simp only [mkdirOp, hmk, Bool.false_eq_true, if_false, step, emit]
    simp only [moveOp, hlk, hmf, Bool.false_eq_true, if_false, step, emit]
    simp only [hext, Bool.false_eq_true, and_false, eq_self_iff_true,
      and_true, if_false, step, emit]
    simp only [detectPhase, emit, hfmt, Option.isNone_some,
      Bool.false_eq_true, if_false]
    simp only [mkdirOp, hmk2, Bool.false_eq_true, if_false, step, emit]
    simp only [symlinkOp, hsl, Bool.false_eq_true, if_false, step, emit]
    simp only [hasOriginalRole_concat, eq_self_iff_true, if_true]
    simp only [afterUnpack, emit, hint, ne_eq, not_true_eq_false, if_false,
      hsp, Bool.false_eq_true]
  simp only [runImport, hbody, emit]
  refine ⟨trivial, ?_, ?_, ?_⟩
  · simp [List.append_assoc]
  · simp [deployAttemptEvents_append, deployAttemptEvents_cons]
    rfl
  · simp [List.getLast?_concat]

/-- The C10 witness environment: the upload matches a spatial-capable
importable format that is not spatial and needs no conversion, so the
run reaches the NotImplementedError branch. -/
def envC10w : Env :=
  { envBase with matchImportable := fun _ => some ⟨"tif", false, false, ""⟩ }

/-- C10, witness: a concrete run through the non-spatial branch ends in
NotImplementedError with the generic file-error event last. -/
theorem C10_run_not_implemented_witness :
    (runImport envC10w [⟨"f", none⟩] none false stRun).1 =
      Except.error PErr.notImplemented ∧
    (runImport envC10w [⟨"f", none⟩] none false stRun).2.events.getLast? =
      some ⟨EventKind.fileError,
        some (uploadDirOf envC10w ++ [⟨"f", none⟩])⟩ :=
  have h := C10_run_not_implemented envC10w [⟨"f", none⟩] none stRun
    ⟨"tif", false, false, ""⟩ 5 ⟨"f", none⟩
    rfl rfl rfl rfl rfl rfl rfl rfl rfl rfl rfl
  ⟨h.1, h.2.2.2⟩

end Pims
